import Mathlib

/-!
Shallow embedding of the SuperQuantLab backtesting core and its regime
analytics, together with proofs about the claims of the specification.

Conventions of the embedding:
* Python `Decimal` and `float` values are modelled as exact rationals (`ℚ`);
  all scenario inputs used below are chosen so that the exact-rational and
  binary-float computations agree on every comparison that matters.
* Timestamps are modelled as integers (bar index / epoch hour); the code only
  ever copies timestamps or compares bar order, never does date arithmetic in
  the embedded fragment.
* The module `app/models/market.py` is not present in the source tree (only
  its callers are), so the market data model (`Candle`, `Bar`, `Signal`,
  `Position`, `Portfolio`, `Trade`) is modelled from the spec, §3; each such
  definition carries a `Modelled from the spec:` note.
* `uuid.uuid4()` (the trade-id generator) is modelled as an external stream of
  strings `ids : ℕ → String` handed to the engine; `datetime.now()` fields
  (`StrategyResult.created_at`, the unused `on_finish` placeholder result) are
  outside the embedding.
* `_calculate_performance_metrics` is embedded with its exact error behaviour
  and its exactly-representable fields. Its float-valued statistics (the numpy
  Sharpe ratio, win_rate, profit_factor, avg_win, avg_loss, avg_r_multiple)
  are each guarded in the source so they never raise, feed into no other
  field, and are read by no claim; they are outside the exact-rational
  embedding. Python `Decimal` raises on division by zero and on `Decimal **
  float` (the decimal module refuses mixed arithmetic with floats), so those
  statements are embedded as `Except` error exits.
-/

set_option maxRecDepth 40000

namespace SuperQuantLab

/-- Trade side (`Side` of `app/models/market.py`). Modelled from the spec §3:
`side {BUY,SELL}`. -/
inductive Side where
  | BUY
  | SELL
  deriving DecidableEq, Repr

/-- Market regime (`RegimeState`, `app/models/strategy.py` lines 11-15). -/
inductive RegimeState where
  | TREND
  | NEUTRAL
  | CHAOTIC
  deriving DecidableEq, Repr

/-- Strategy type tag (`StrategyType`, `app/models/strategy.py` lines 18-22). -/
inductive StrategyType where
  | ma_crossover
  | ma_cluster_density
  | custom
  deriving DecidableEq, Repr

/-- OHLCV candle (`Candle` of `app/models/market.py`). Modelled from the spec
§3 `MarketBar`: timestamp, open, high, low, close, volume, symbol, timeframe;
"close is the only price consumed by execution logic". `open` is a Lean
keyword, hence the field name `open_`. -/
structure Candle where
  timestamp : Int
  open_ : ℚ
  high : ℚ
  low : ℚ
  close : ℚ
  volume : ℚ
  symbol : String
  timeframe : String
  deriving DecidableEq, Repr

/-- `Bar` (`app/models/market.py`). Modelled from the spec §3: a bar carries
the same OHLCV record as a candle. -/
abbrev Bar := Candle

/-- `Bar.from_candle` (`app/models/market.py`, used at
`backtest_engine.py` line 351). Modelled from the spec: a field-for-field
copy of the candle. -/
def Bar.from_candle (c : Candle) : Bar := c

/-- Trading signal (`Signal` of `app/models/market.py`). Modelled from the
spec §3: timestamp, symbol, side, price, optional quantity (fraction ≤ 1 or
absolute), reason. -/
structure Signal where
  timestamp : Int
  symbol : String
  side : Side
  price : ℚ
  quantity : Option ℚ := none
  reason : String := ""
  deriving DecidableEq, Repr

/-- Per-symbol position (`Position` of `app/models/market.py`). Modelled from
the spec §3: symbol, quantity, avg_price; `Position(symbol=...)` as called at
`backtest_engine.py` line 124 defaults quantity and avg_price to 0. -/
structure Position where
  symbol : String
  quantity : ℚ := 0
  avg_price : ℚ := 0
  deriving DecidableEq, Repr

/-- Executed trade record (`Trade` of `app/models/market.py`). Modelled from
the spec §3: id, timestamp, symbol, side, quantity, fill price, fee; the
engine additionally stores `strategy_id` (`backtest_engine.py` line 182). -/
structure Trade where
  trade_id : String
  timestamp : Int
  symbol : String
  side : Side
  quantity : ℚ
  price : ℚ
  fee : ℚ
  strategy_id : String
  deriving DecidableEq, Repr

/-- Portfolio (`Portfolio` of `app/models/market.py`). Modelled from the spec
§3: cash, positions (symbol → Position, unique keys, here an association
list), realized_pnl, and the cached equity that `update_equity` maintains
(spec: equity = cash + Σ position.quantity × current mark price; with no
positions this is the cash, which is the initial value used at construction).
The portfolio's own trade log mirrors the engine's `self.trades` list
entry-for-entry (`backtest_engine.py` lines 185-186) and is modelled once, as
the engine's list. -/
structure Portfolio where
  initial_capital : ℚ
  cash : ℚ
  positions : List (String × Position) := []
  realized_pnl : ℚ := 0
  equity : ℚ
  deriving DecidableEq, Repr

/-- `Portfolio.update_equity(prices)` (`app/models/market.py`, called via
`_update_portfolio`, `backtest_engine.py` lines 190-192). Modelled from the
spec §3: equity = cash + Σ(position.quantity × current mark price); a symbol
with no quoted price contributes 0. -/
def Portfolio.update_equity (pf : Portfolio) (prices : List (String × ℚ)) : Portfolio :=
  { pf with equity :=
      pf.cash + (pf.positions.map (fun sp => sp.2.quantity * ((prices.lookup sp.1).getD 0))).sum }

/-- Equity-curve point (`EquityPoint`, `app/models/strategy.py` lines 66-70). -/
structure EquityPoint where
  timestamp : Int
  equity : ℚ
  drawdown : ℚ
  deriving DecidableEq, Repr

/-- Behavior metrics (`BehaviorMetrics`, `app/engines/behavior_engine.py`
lines 13-19). -/
structure BehaviorMetrics where
  impulsiveness_index : ℚ := 0
  chase_selloff_index : ℚ := 0
  consecutive_losses : ℕ := 0
  avg_operation_interval_ms : ℚ := 0
  total_operations : ℕ := 0
  deriving DecidableEq, Repr

/-- Regime snapshot (`RegimeInfo`, `app/models/strategy.py` lines 99-107).
The `timestamp` field is `datetime.now()` in the source (wall clock) and is
outside the embedding. Pydantic validates the four index fields into [0,1];
the theorems below therefore assume their inputs lie in [0,1]. -/
structure RegimeInfo where
  regime : RegimeState
  chaos_index : ℚ
  whale_activity_index : ℚ
  leverage_risk_index : ℚ
  position_multiplier : ℚ
  allow_new_trades : Bool
  deriving DecidableEq, Repr

/-- The strategy parameter mapping (`StrategyConfig.parameters`, a
`Dict[str, Any]` in `app/models/strategy.py` line 31), modelled as the typed
record of the keys the two strategies read via `params.get(key, default)`;
an absent key is `none`. -/
structure StrategyParameters where
  short_window : Option ℕ := none
  long_window : Option ℕ := none
  position_size_pct : Option ℚ := none
  ma_periods : Option (List ℕ) := none
  density_threshold : Option ℚ := none
  breakout_multiplier : Option ℚ := none
  deriving DecidableEq, Repr

/-- Strategy configuration (`StrategyConfig`, `app/models/strategy.py` lines
25-34); the `created_at`/`updated_at` wall-clock fields and the unused
`description`/`enabled` fields are outside the embedding. -/
structure StrategyConfig where
  strategy_id : String
  strategy_type : StrategyType
  name : String
  parameters : StrategyParameters := {}
  deriving DecidableEq, Repr

/-! ### Data transforms (`app/data/transforms.py`) -/

/-- `calculate_moving_average(candles, window)` (`app/data/transforms.py`
lines 101-119). pandas `rolling(window).mean()` is the mean of the trailing
`window` closes from index `window-1` on and NaN before; `.fillna(0)` turns
the leading NaNs into 0. If there are fewer candles than `window`, a list of
zeros of the same length is returned. The float means are modelled as exact
rational means. -/
def calculate_moving_average (candles : List Candle) (window : ℕ) : List ℚ :=
  if candles.length < window then List.replicate candles.length 0
  else
    (List.range candles.length).map (fun i =>
      if i + 1 < window then 0
      else (((candles.map (fun c => c.close)).drop (i + 1 - window)).take window).sum / (window : ℚ))

/-! ### MA-Crossover strategy (`app/strategies/ma_crossover.py`) -/

/-- Constructor parameters of `MACrossoverStrategy` with their
`params.get` defaults (`ma_crossover.py` lines 27-29). -/
structure MACrossoverParams where
  short_window : ℕ := 10
  long_window : ℕ := 30
  position_size_pct : ℚ := 1/10
  deriving DecidableEq, Repr

/-- Mutable state of `MACrossoverStrategy` (`ma_crossover.py` lines 31-40);
the values set by `reset()` are the defaults. -/
structure MACrossoverState where
  bars : List Bar := []
  signals : List Signal := []
  current_position : Option Side := none
  deriving DecidableEq, Repr

/-- `MACrossoverStrategy.on_bar` (`ma_crossover.py` lines 42-128). Returns
the updated state and the signal the method returns. When an opposite
position is closed first, the close signal is appended to `self.signals` and
then the local `signal` variable is overwritten by the opening signal, which
is what is appended last and returned. Reason strings are abbreviated (the
source interpolates the window sizes); no claim reads them. -/
def MACrossoverStrategy.on_bar (p : MACrossoverParams) (st : MACrossoverState) (bar : Bar) :
    MACrossoverState × Option Signal :=
  let bars := st.bars ++ [bar]
  if bars.length < p.long_window then ({ st with bars := bars }, none)
  else
    let short_ma_list := calculate_moving_average bars p.short_window
    let long_ma_list := calculate_moving_average bars p.long_window
    if short_ma_list.length < 2 ∨ long_ma_list.length < 2 then
      ({ st with bars := bars }, none)
    else
      let short_ma_prev := short_ma_list.getD (short_ma_list.length - 2) 0
      let short_ma_curr := short_ma_list.getD (short_ma_list.length - 1) 0
      let long_ma_prev := long_ma_list.getD (long_ma_list.length - 2) 0
      let long_ma_curr := long_ma_list.getD (long_ma_list.length - 1) 0
      if short_ma_prev ≤ long_ma_prev ∧ short_ma_curr > long_ma_curr then
        if st.current_position ≠ some Side.BUY then
          let close_signals : List Signal :=
            if st.current_position = some Side.SELL then
              [{ timestamp := bar.timestamp, symbol := bar.symbol, side := Side.BUY,
                 price := bar.close, quantity := none, reason := "MA crossover: close short" }]
            else []
          let open_signal : Signal :=
            { timestamp := bar.timestamp, symbol := bar.symbol, side := Side.BUY,
              price := bar.close, quantity := some p.position_size_pct,
              reason := "MA crossover: short crosses above long" }
          ({ st with
              bars := bars
              signals := st.signals ++ close_signals ++ [open_signal]
              current_position := some Side.BUY },
           some open_signal)
        else ({ st with bars := bars }, none)
      else if short_ma_prev ≥ long_ma_prev ∧ short_ma_curr < long_ma_curr then
        if st.current_position ≠ some Side.SELL then
          let close_signals : List Signal :=
            if st.current_position = some Side.BUY then
              [{ timestamp := bar.timestamp, symbol := bar.symbol, side := Side.SELL,
                 price := bar.close, quantity := none, reason := "MA crossover: close long" }]
            else []
          let open_signal : Signal :=
            { timestamp := bar.timestamp, symbol := bar.symbol, side := Side.SELL,
              price := bar.close, quantity := some p.position_size_pct,
              reason := "MA crossover: short crosses below long" }
          ({ st with
              bars := bars
              signals := st.signals ++ close_signals ++ [open_signal]
              current_position := some Side.SELL },
           some open_signal)
        else ({ st with bars := bars }, none)
      else ({ st with bars := bars }, none)

/-- Driver: feed a bar list through a freshly reset `MACrossoverStrategy` and
collect the accumulated `self.signals` list. -/
def MACrossoverStrategy.run_signals (p : MACrossoverParams) (bars : List Bar) : List Signal :=
  (bars.foldl (fun st bar => (MACrossoverStrategy.on_bar p st bar).1) {}).signals

/-! ### MA-Cluster-Density strategy (`app/strategies/ma_cluster_density.py`) -/

/-- Minimum of a rational list, Python `min(xs)` (first argument wins ties;
for numbers the value is the same). Python raises on an empty list; the model
is total with default `d`, and no claim evaluates it on an empty list. -/
def listMinD (xs : List ℚ) (d : ℚ) : ℚ :=
  match xs with
  | [] => d
  | x :: rest => rest.foldl (fun a b => if b < a then b else a) x

/-- Maximum of a rational list, Python `max(xs)`; see `listMinD`. -/
def listMaxD (xs : List ℚ) (d : ℚ) : ℚ :=
  match xs with
  | [] => d
  | x :: rest => rest.foldl (fun a b => if a < b then b else a) x

/-- Maximum of a natural-number list, Python `max(xs)`; see `listMinD`. -/
def listMaxNatD (xs : List ℕ) (d : ℕ) : ℕ :=
  match xs with
  | [] => d
  | x :: rest => rest.foldl (fun a b => if a < b then b else a) x

/-- Constructor parameters of `MAClusterDensityStrategy` with their
`params.get` defaults (`ma_cluster_density.py` lines 32-35). -/
structure MAClusterDensityParams where
  ma_periods : List ℕ := [5, 10, 20, 30, 50]
  density_threshold : ℚ := 1/50
  breakout_multiplier : ℚ := 3/2
  position_size_pct : ℚ := 1/10
  deriving DecidableEq, Repr

/-- Mutable state of `MAClusterDensityStrategy` (`ma_cluster_density.py`
lines 37-48). -/
structure MAClusterDensityState where
  bars : List Bar := []
  signals : List Signal := []
  current_position : Option Side := none
  cluster_formed : Bool := false
  deriving DecidableEq, Repr

/-- `MAClusterDensityStrategy._calculate_ma_values` (`ma_cluster_density.py`
lines 50-59): the last entry of each period's MA list, 0 for an empty list. -/
def MAClusterDensityStrategy.calculate_ma_values (p : MAClusterDensityParams)
    (bars : List Bar) : List ℚ :=
  p.ma_periods.map (fun period => (calculate_moving_average bars period).getLastD 0)

/-- `MAClusterDensityStrategy._check_cluster_density` (`ma_cluster_density.py`
lines 61-99). -/
def MAClusterDensityStrategy.check_cluster_density (p : MAClusterDensityParams)
    (ma_values : List ℚ) (current_price : ℚ) : Bool × Option Side :=
  if ma_values.length < 2 then (false, none)
  else
    let valid_mas := ma_values.filter (fun ma => 0 < ma)
    if valid_mas.length < 2 then (false, none)
    else
      let ma_avg := valid_mas.sum / (valid_mas.length : ℚ)
      let ma_min := listMinD valid_mas 0
      let ma_max := listMaxD valid_mas 0
      if ma_avg = 0 then (false, none)
      else
        let spread_pct := (ma_max - ma_min) / ma_avg
        if ¬ (spread_pct ≤ p.density_threshold) then (false, none)
        else if current_price > ma_max * (1 + p.breakout_multiplier * p.density_threshold) then
          (true, some Side.BUY)
        else if current_price < ma_min * (1 - p.breakout_multiplier * p.density_threshold) then
          (true, some Side.SELL)
        else (true, none)

/-- `MAClusterDensityStrategy._check_divergence` (`ma_cluster_density.py`
lines 101-122). -/
def MAClusterDensityStrategy.check_divergence (p : MAClusterDensityParams)
    (ma_values : List ℚ) : Bool :=
  let valid_mas := ma_values.filter (fun ma => 0 < ma)
  if valid_mas.length < 2 then false
  else
    let ma_avg := valid_mas.sum / (valid_mas.length : ℚ)
    let ma_min := listMinD valid_mas 0
    let ma_max := listMaxD valid_mas 0
    if ma_avg = 0 then false
    else (ma_max - ma_min) / ma_avg > p.density_threshold * p.breakout_multiplier

/-- `MAClusterDensityStrategy.on_bar` (`ma_cluster_density.py` lines
124-199). Python truthiness: `if is_clustered and suggested_side and not
self.cluster_formed` requires `suggested_side` to be non-None, and
`if self.current_position` requires a present position. As in the crossover
strategy, a close signal is appended immediately and the opening signal is
the one returned. -/
def MAClusterDensityStrategy.on_bar (p : MAClusterDensityParams)
    (st : MAClusterDensityState) (bar : Bar) : MAClusterDensityState × Option Signal :=
  let bars := st.bars ++ [bar]
  let max_period := listMaxNatD p.ma_periods 0
  if bars.length < max_period then ({ st with bars := bars }, none)
  else
    let ma_values := MAClusterDensityStrategy.calculate_ma_values p bars
    let cd := MAClusterDensityStrategy.check_cluster_density p ma_values bar.close
    let is_clustered := cd.1
    let suggested_side := cd.2
    let entry :=
      match suggested_side, st.cluster_formed with
      | some side, false =>
        if is_clustered then
          let close_signals : List Signal :=
            match st.current_position with
            | some cur =>
              if cur ≠ side then
                [{ timestamp := bar.timestamp, symbol := bar.symbol,
                   side := (if cur = Side.BUY then Side.SELL else Side.BUY),
                   price := bar.close, quantity := none,
                   reason := "MA cluster: close opposite position" }]
              else []
            | none => []
          let closed : Bool := !close_signals.isEmpty
          let cur' : Option Side := if closed then none else st.current_position
          match cur' with
          | none =>
            let open_signal : Signal :=
              { timestamp := bar.timestamp, symbol := bar.symbol, side := side,
                price := bar.close, quantity := some p.position_size_pct,
                reason := "MA cluster density breakout" }
            some ({ st with
                bars := bars
                signals := st.signals ++ close_signals ++ [open_signal]
                current_position := some side
                cluster_formed := true },
              some open_signal)
          | some _ =>
            some ({ st with
                bars := bars
                signals := st.signals ++ close_signals
                current_position := cur'
                cluster_formed := true },
              none)
        else none
      | _, _ => none
    let after :=
      match entry with
      | some result => result
      | none =>
        if st.cluster_formed && MAClusterDensityStrategy.check_divergence p ma_values then
          match st.current_position with
          | some cur =>
            let close_signal : Signal :=
              { timestamp := bar.timestamp, symbol := bar.symbol,
                side := (if cur = Side.BUY then Side.SELL else Side.BUY),
                price := bar.close, quantity := none,
                reason := "MA cluster divergence: exit position" }
            ({ st with
                bars := bars
                signals := st.signals ++ [close_signal]
                current_position := none
                cluster_formed := false },
             some close_signal)
          | none => ({ st with bars := bars }, none)
        else ({ st with bars := bars }, none)
    if ¬ is_clustered then
      ({ after.1 with cluster_formed := false }, after.2)
    else after

/-! ### Backtest engine (`app/engines/backtest_engine.py`) -/

/-- Constructor parameters of `BacktestEngine` with their defaults
(`backtest_engine.py` lines 43-59). -/
structure BacktestEngineConfig where
  initial_capital : ℚ := 100000
  fee_rate : ℚ := 1/1000
  slippage_rate : ℚ := 1/2000
  deriving DecidableEq, Repr

/-- `BacktestEngine._apply_slippage` (`backtest_engine.py` lines 75-80). -/
def BacktestEngine.apply_slippage (cfg : BacktestEngineConfig) (price : ℚ) (side : Side) : ℚ :=
  match side with
  | Side.BUY => price * (1 + cfg.slippage_rate)
  | Side.SELL => price * (1 - cfg.slippage_rate)

/-- `BacktestEngine._calculate_fee` (`backtest_engine.py` lines 82-84). -/
def BacktestEngine.calculate_fee (cfg : BacktestEngineConfig) (quantity price : ℚ) : ℚ :=
  quantity * price * cfg.fee_rate

/-- `Decimal(str(round(float(quantity), 8)))` (`backtest_engine.py` line 118):
rounding to 8 decimal places. Python rounds the binary double half-to-even;
this is modelled as exact rounding of the rational (Mathlib `round`, half-up);
every claim below is settled on inputs where the quantity is exactly
representable in 8 decimal places, where the two coincide. -/
def roundTo8 (q : ℚ) : ℚ := (round (q * 100000000) : ℤ) / 100000000

/-- Lines 106-118 of `backtest_engine.py`: determine the trade quantity from
the signal quantity, the current equity and the fill price. Python's
`if signal.quantity:` is a truthiness test, so a present quantity equal to 0
is falsy and falls through to the 1%-of-equity default branch exactly like an
absent quantity. This total function gives the value of the computation on
the domain where it does not raise; `determine_quantity_checked` below is the
fallible form that also models the `decimal` division-by-zero raise at a zero
fill price, and is the one the engine loop runs. -/
def BacktestEngine.determine_quantity (equity execution_price : ℚ) (signal_quantity : Option ℚ) : ℚ :=
  let quantity : ℚ :=
    match signal_quantity with
    | some q =>
      if q ≠ 0 then
        if q ≤ 1 then equity * q / execution_price
        else q
      else equity * (1/100) / execution_price
    | none => equity * (1/100) / execution_price
  roundTo8 quantity

/-- `portfolio.positions.get(symbol, Position(symbol=symbol))`
(`backtest_engine.py` line 124). -/
def getPosition (positions : List (String × Position)) (symbol : String) : Position :=
  match positions.lookup symbol with
  | some p => p
  | none => { symbol := symbol }

/-- `portfolio.positions[symbol] = position` (`backtest_engine.py` line 171):
update of the symbol-keyed mapping, keys stay unique. -/
def setPosition : List (String × Position) → String → Position → List (String × Position)
  | [], symbol, pos => [(symbol, pos)]
  | (s, p) :: rest, symbol, pos =>
    if s = symbol then (s, pos) :: rest else (s, p) :: setPosition rest symbol pos

/-- `BacktestEngine._execute_signal` (`backtest_engine.py` lines 86-188).
Returns the updated portfolio and the created trade, `none` on the three
silent rejections (non-positive quantity, insufficient cash for a BUY, no
position for a SELL). `trade_id` is the `uuid.uuid4()` draw, handed in by the
caller; the trade is appended by the caller to the run's trade list (the
source appends it to both `self.trades` and `portfolio.trades`). -/
def BacktestEngine.execute_signal (cfg : BacktestEngineConfig) (trade_id : String)
    (signal : Signal) (current_price : ℚ) (portfolio : Portfolio) :
    Portfolio × Option Trade :=
  let execution_price := BacktestEngine.apply_slippage cfg current_price signal.side
  let quantity := BacktestEngine.determine_quantity portfolio.equity execution_price signal.quantity
  if quantity ≤ 0 then (portfolio, none)
  else
    let position := getPosition portfolio.positions signal.symbol
    let trade_value := quantity * execution_price
    let fee := BacktestEngine.calculate_fee cfg quantity execution_price
    let trade : Trade :=
      { trade_id := trade_id, timestamp := signal.timestamp, symbol := signal.symbol,
        side := signal.side, quantity := quantity, price := execution_price, fee := fee,
        strategy_id := signal.symbol }
    match signal.side with
    | Side.BUY =>
      if portfolio.cash < trade_value + fee then (portfolio, none)
      else
        let position' :=
          if position.quantity = 0 then
            { position with quantity := quantity, avg_price := execution_price }
          else
            let total_value := position.quantity * position.avg_price + trade_value
            { position with
                quantity := position.quantity + quantity
                avg_price := total_value / (position.quantity + quantity) }
        ({ portfolio with
            cash := portfolio.cash - (trade_value + fee)
            positions := setPosition portfolio.positions signal.symbol position' },
         some trade)
    | Side.SELL =>
      if position.quantity ≤ 0 then (portfolio, none)
      else
        let close_quantity := if quantity ≤ position.quantity then quantity else position.quantity
        let realized_pnl := (execution_price - position.avg_price) * close_quantity - fee
        let new_quantity := position.quantity - close_quantity
        let position' :=
          { position with
              quantity := new_quantity
              avg_price := if new_quantity = 0 then 0 else position.avg_price }
        ({ portfolio with
            cash := portfolio.cash + (close_quantity * execution_price - fee)
            realized_pnl := portfolio.realized_pnl + realized_pnl
            positions := setPosition portfolio.positions signal.symbol position' },
         some trade)

/-- Fallible form of the quantity determination (`backtest_engine.py` lines
106-118): Python `Decimal` division raises (`decimal.DivisionByZero`, or
`decimal.InvalidOperation` for 0/0 — both trapped by default) when the
divisor `execution_price` is 0, which the total `determine_quantity` cannot
express. The division is only reached on the two branches that divide by the
fill price; a present quantity above 1 is used as an absolute count with no
division. On the non-raising domain the value is `determine_quantity`
(theorems `determine_quantity_checked_ok` / `determine_quantity_checked_safe`
below). -/
def BacktestEngine.determine_quantity_checked (equity execution_price : ℚ)
    (signal_quantity : Option ℚ) : Except String ℚ :=
  match signal_quantity with
  | some q =>
    if q ≠ 0 then
      if q ≤ 1 then
        if execution_price = 0 then .error "decimal division by zero"
        else .ok (roundTo8 (equity * q / execution_price))
      else .ok (roundTo8 q)
    else
      if execution_price = 0 then .error "decimal division by zero"
      else .ok (roundTo8 (equity * (1/100) / execution_price))
  | none =>
    if execution_price = 0 then .error "decimal division by zero"
    else .ok (roundTo8 (equity * (1/100) / execution_price))

/-- Fallible form of `BacktestEngine._execute_signal` (`backtest_engine.py`
lines 86-188), surfacing the two `decimal` divisions that can raise: the
quantity determination at lines 110/115 (zero fill price) and the
weighted-average update `total_value / position.quantity` at line 145, whose
divisor `position.quantity + quantity` is zero only if the held quantity was
negative (impossible inside a run, where positions stay nonnegative). On the
non-raising domain the value is exactly `execute_signal` (theorems
`execute_signal_checked_ok` / `execute_signal_checked_safe` below). -/
def BacktestEngine.execute_signal_checked (cfg : BacktestEngineConfig) (trade_id : String)
    (signal : Signal) (current_price : ℚ) (portfolio : Portfolio) :
    Except String (Portfolio × Option Trade) :=
  let execution_price := BacktestEngine.apply_slippage cfg current_price signal.side
  match BacktestEngine.determine_quantity_checked portfolio.equity execution_price
      signal.quantity with
  | .error e => .error e
  | .ok quantity =>
    if quantity ≤ 0 then .ok (portfolio, none)
    else
      let position := getPosition portfolio.positions signal.symbol
      let trade_value := quantity * execution_price
      let fee := BacktestEngine.calculate_fee cfg quantity execution_price
      let trade : Trade :=
        { trade_id := trade_id, timestamp := signal.timestamp, symbol := signal.symbol,
          side := signal.side, quantity := quantity, price := execution_price, fee := fee,
          strategy_id := signal.symbol }
      match signal.side with
      | Side.BUY =>
        if portfolio.cash < trade_value + fee then .ok (portfolio, none)
        else if position.quantity = 0 then
          .ok ({ portfolio with
              cash := portfolio.cash - (trade_value + fee)
              positions := setPosition portfolio.positions signal.symbol
                { position with quantity := quantity, avg_price := execution_price } },
            some trade)
        else if position.quantity + quantity = 0 then .error "decimal division by zero"
        else
          .ok ({ portfolio with
              cash := portfolio.cash - (trade_value + fee)
              positions := setPosition portfolio.positions signal.symbol
                { position with
                    quantity := position.quantity + quantity
                    avg_price := (position.quantity * position.avg_price + trade_value) /
                      (position.quantity + quantity) } },
            some trade)
      | Side.SELL =>
        if position.quantity ≤ 0 then .ok (portfolio, none)
        else
          let close_quantity := if quantity ≤ position.quantity then quantity else position.quantity
          let realized_pnl := (execution_price - position.avg_price) * close_quantity - fee
          let new_quantity := position.quantity - close_quantity
          .ok ({ portfolio with
              cash := portfolio.cash + (close_quantity * execution_price - fee)
              realized_pnl := portfolio.realized_pnl + realized_pnl
              positions := setPosition portfolio.positions signal.symbol
                { position with
                    quantity := new_quantity
                    avg_price := if new_quantity = 0 then 0 else position.avg_price } },
            some trade)

/-- The strategy instance owned by a run: the tagged union the engine
dispatches on (`_create_strategy`, `backtest_engine.py` lines 66-73). -/
inductive StrategyState where
  | ma_crossover (params : MACrossoverParams) (st : MACrossoverState)
  | ma_cluster_density (params : MAClusterDensityParams) (st : MAClusterDensityState)
  deriving DecidableEq, Repr

/-- Dispatch of `strategy.on_bar(bar)` (`backtest_engine.py` line 354). -/
def StrategyState.on_bar : StrategyState → Bar → StrategyState × Option Signal
  | .ma_crossover p st, bar =>
    let r := MACrossoverStrategy.on_bar p st bar
    (.ma_crossover p r.1, r.2)
  | .ma_cluster_density p st, bar =>
    let r := MAClusterDensityStrategy.on_bar p st bar
    (.ma_cluster_density p r.1, r.2)

/-- `strategy.reset()` (`backtest_engine.py` line 347; `ma_crossover.py`
lines 36-40, `ma_cluster_density.py` lines 43-48). -/
def StrategyState.reset : StrategyState → StrategyState
  | .ma_crossover p _ => .ma_crossover p {}
  | .ma_cluster_density p _ => .ma_cluster_density p {}

/-- `BacktestEngine._create_strategy` (`backtest_engine.py` lines 66-73):
builds the strategy from the config's type tag and parameters (with the
strategies' `params.get` defaults), raising `ValueError` on an unknown type. -/
def BacktestEngine.create_strategy (config : StrategyConfig) : Except String StrategyState :=
  match config.strategy_type with
  | .ma_crossover =>
    .ok (.ma_crossover
      { short_window := config.parameters.short_window.getD 10,
        long_window := config.parameters.long_window.getD 30,
        position_size_pct := config.parameters.position_size_pct.getD (1/10) } {})
  | .ma_cluster_density =>
    .ok (.ma_cluster_density
      { ma_periods := config.parameters.ma_periods.getD [5, 10, 20, 30, 50],
        density_threshold := config.parameters.density_threshold.getD (1/50),
        breakout_multiplier := config.parameters.breakout_multiplier.getD (3/2),
        position_size_pct := config.parameters.position_size_pct.getD (1/10) } {})
  | .custom => .error "Unknown strategy type"

/-- The loop state of `BacktestEngine.run`: the strategy instance, the
portfolio, `self.equity_curve` and `self.trades`. -/
structure RunState where
  strategy : StrategyState
  portfolio : Portfolio
  equity_curve : List EquityPoint
  trades : List Trade
  deriving Repr

/-- The loop state `run` builds before the first candle (`backtest_engine.py`
lines 336-347): freshly reset strategy, fresh portfolio (cash = equity =
initial capital, no positions), empty curve and trade list. -/
def initState (cfg : BacktestEngineConfig) (st : StrategyState) : RunState :=
  { strategy := st.reset
    portfolio := { initial_capital := cfg.initial_capital, cash := cfg.initial_capital, positions := [], realized_pnl := 0, equity := cfg.initial_capital }
    equity_curve := []
    trades := [] }

/-- `max([p.equity for p in equity_curve], default=initial_capital)`
(`backtest_engine.py` line 367): Python `max` of the previous equities; the
default is used only when the list is empty and does not otherwise take part
in the maximum. -/
def curvePeak (initial_capital : ℚ) (curve : List EquityPoint) : ℚ :=
  match curve.map (fun p => p.equity) with
  | [] => initial_capital
  | e :: es => es.foldl (fun a b => if a ≤ b then b else a) e

/-- One iteration of the per-candle loop of `BacktestEngine.run`
(`backtest_engine.py` lines 350-376): feed the bar to the strategy, execute
the signal if any, mark the portfolio to the candle close, append the equity
point with the drawdown against the running peak of the previously recorded
equities. `ids` models the `uuid.uuid4()` stream; one id is consumed per
created trade. -/
def BacktestEngine.process_candle (cfg : BacktestEngineConfig) (ids : ℕ → String)
    (s : RunState) (candle : Candle) : RunState :=
  let bar := Bar.from_candle candle
  let stepped := s.strategy.on_bar bar
  let current_prices := [(candle.symbol, candle.close)]
  let executed :=
    match stepped.2 with
    | some signal =>
      match BacktestEngine.execute_signal cfg (ids s.trades.length) signal candle.close s.portfolio with
      | (pf, some trade) => (pf, s.trades ++ [trade])
      | (pf, none) => (pf, s.trades)
    | none => (s.portfolio, s.trades)
  let portfolio' := executed.1.update_equity current_prices
  let peak_equity := curvePeak cfg.initial_capital s.equity_curve
  let drawdown := if 0 < peak_equity then (peak_equity - portfolio'.equity) / peak_equity else 0
  { strategy := stepped.1,
    portfolio := portfolio',
    equity_curve := s.equity_curve ++
      [{ timestamp := candle.timestamp, equity := portfolio'.equity, drawdown := drawdown }],
    trades := executed.2 }

/-- Fallible form of the per-candle loop iteration (`backtest_engine.py`
lines 350-376), propagating the `decimal` divisions that `_execute_signal`
can raise. On the non-raising domain the successor state is exactly
`process_candle` (theorems `process_candle_checked_ok` /
`process_candle_checked_safe` below). -/
def BacktestEngine.process_candle_checked (cfg : BacktestEngineConfig) (ids : ℕ → String)
    (s : RunState) (candle : Candle) : Except String RunState :=
  let bar := Bar.from_candle candle
  let stepped := s.strategy.on_bar bar
  let current_prices := [(candle.symbol, candle.close)]
  match stepped.2 with
  | some signal =>
    match BacktestEngine.execute_signal_checked cfg (ids s.trades.length) signal
        candle.close s.portfolio with
    | .error e => .error e
    | .ok pt =>
      let portfolio' := pt.1.update_equity current_prices
      let trades' := match pt.2 with | some t => s.trades ++ [t] | none => s.trades
      let peak_equity := curvePeak cfg.initial_capital s.equity_curve
      let drawdown := if 0 < peak_equity then (peak_equity - portfolio'.equity) / peak_equity else 0
      .ok { strategy := stepped.1,
            portfolio := portfolio',
            equity_curve := s.equity_curve ++
              [{ timestamp := candle.timestamp, equity := portfolio'.equity, drawdown := drawdown }],
            trades := trades' }
  | none =>
    let portfolio' := s.portfolio.update_equity current_prices
    let peak_equity := curvePeak cfg.initial_capital s.equity_curve
    let drawdown := if 0 < peak_equity then (peak_equity - portfolio'.equity) / peak_equity else 0
    .ok { strategy := stepped.1,
          portfolio := portfolio',
          equity_curve := s.equity_curve ++
            [{ timestamp := candle.timestamp, equity := portfolio'.equity, drawdown := drawdown }],
          trades := s.trades }

/-- The candle loop of `BacktestEngine.run` (`backtest_engine.py` lines
350-376) as a fallible fold: the first raised exception aborts the run. -/
def BacktestEngine.run_loop (cfg : BacktestEngineConfig) (ids : ℕ → String) :
    List Candle → RunState → Except String RunState
  | [], s => .ok s
  | c :: cs, s =>
    match BacktestEngine.process_candle_checked cfg ids s c with
    | .error e => .error e
    | .ok s' => BacktestEngine.run_loop cfg ids cs s'

/-- The exactly-representable fields of `PerformanceMetrics`
(`app/models/strategy.py` lines 43-58) as computed by
`_calculate_performance_metrics` (`backtest_engine.py` lines 194-306). The
remaining fields (sharpe_ratio, win_rate, profit_factor, avg_r_multiple,
avg_win, avg_loss) are computed in binary floating point in the source, are
each guarded so they never raise, feed into no other field, and are read by
no claim; they are outside the exact-rational embedding. `annualized_return`
is 0 on every non-raising path: when the curve has more than one point and
spans forward time, the source instead raises at `Decimal ** float` (line
216) before assigning it. -/
structure PerformanceMetrics where
  total_return : ℚ := 0
  annualized_return : ℚ := 0
  max_drawdown : ℚ := 0
  max_drawdown_duration : ℕ := 0
  total_trades : ℕ := 0
  winning_trades : ℕ := 0
  losing_trades : ℕ := 0
  deriving DecidableEq, Repr

/-- The max-drawdown loop of `_calculate_performance_metrics`
(`backtest_engine.py` lines 244-260): peak starts at the initial capital, a
new equity high resets the duration counter, every other point divides
`(peak - equity) / peak` — a `decimal` raise when peak is 0, which is only
reachable from a negative initial capital (once positive, the peak can only
grow). -/
def maxDrawdownLoop (peak max_dd : ℚ) (max_dur cur : ℕ) :
    List EquityPoint → Except String (ℚ × ℕ)
  | [] => .ok (max_dd, max_dur)
  | pt :: rest =>
    if peak < pt.equity then maxDrawdownLoop pt.equity max_dd max_dur 0 rest
    else if peak = 0 then .error "decimal division by zero"
    else
      let dd := (peak - pt.equity) / peak
      let max_dd' := if max_dd < dd then dd else max_dd
      let cur' := cur + 1
      let max_dur' := if max_dur < cur' then cur' else max_dur
      maxDrawdownLoop peak max_dd' max_dur' cur' rest

/-- `BacktestEngine._calculate_performance_metrics` (`backtest_engine.py`
lines 194-306). An empty curve returns the all-default record before any
division (line 203). Otherwise the computation raises, in source order: at
`total_return = (final - initial) / initial` (line 206) when the initial
capital is 0; at `(final/initial) ** (1/years)` (line 216) whenever the curve
has more than one point and its last timestamp is strictly after its first
(`years > 0`), because Python `Decimal` does not support `**` with a float
exponent (TypeError, unconditionally); and in the max-drawdown loop when the
running peak is 0. The trade statistics (lines 262-305): a trade is
"winning" exactly when its side is BUY (`_is_winning_trade`, line 311), and
"losing" when it is not winning and has positive quantity (line 264). -/
def BacktestEngine.calculate_performance_metrics (equity_curve : List EquityPoint)
    (trades : List Trade) (initial_capital final_capital : ℚ) :
    Except String PerformanceMetrics :=
  match equity_curve with
  | [] => .ok {}
  | p0 :: rest =>
    if initial_capital = 0 then .error "decimal division by zero"
    else
      if rest ≠ [] ∧ p0.timestamp < (rest.getLastD p0).timestamp then
        .error "TypeError: unsupported operand type(s) for pow: Decimal and float"
      else
        match maxDrawdownLoop initial_capital 0 0 0 (p0 :: rest) with
        | .error e => .error e
        | .ok dd =>
          .ok { total_return := (final_capital - initial_capital) / initial_capital,
                annualized_return := 0,
                max_drawdown := dd.1,
                max_drawdown_duration := dd.2,
                total_trades := trades.length,
                winning_trades := (trades.filter (fun t => t.side == Side.BUY)).length,
                losing_trades := (trades.filter (fun t =>
                  !(t.side == Side.BUY) && decide (0 < t.quantity))).length }

/-- The embedded run result (`StrategyResult`, `app/models/strategy.py` lines
79-90, as filled in at `backtest_engine.py` lines 391-401). The wall-clock
`created_at` is outside the embedding; `metrics` carries the embedded
performance-metrics record. -/
structure StrategyResult where
  strategy_id : String
  strategy_name : String
  start_date : Int
  end_date : Int
  initial_capital : ℚ
  final_capital : ℚ
  metrics : PerformanceMetrics
  equity_curve : List EquityPoint
  trades : List Trade
  deriving DecidableEq, Repr

/-- `BacktestEngine.run` (`backtest_engine.py` lines 318-403): raise if the
config list or the candle list is empty; create the strategy from the first
config (which raises on an unknown type) and reset it; fold the fallible
per-candle loop over the candles in order; run
`_calculate_performance_metrics` on the recorded curve and trades (line 383),
whose own raises abort the run; build the result. The discarded
`strategy.on_finish()` placeholder (line 379) touches only the strategy's
recorded bars, raises on no input, and is omitted. No time-ordering of the
candles is checked anywhere. -/
def BacktestEngine.run (cfg : BacktestEngineConfig) (ids : ℕ → String)
    (strategy_configs : List StrategyConfig) (candles : List Candle) :
    Except String StrategyResult :=
  match strategy_configs, candles with
  | [], _ => .error "Strategy configs and candles are required"
  | _ :: _, [] => .error "Strategy configs and candles are required"
  | main_config :: _, c :: cs =>
    match BacktestEngine.create_strategy main_config with
    | .error e => .error e
    | .ok strategy0 =>
      match BacktestEngine.run_loop cfg ids (c :: cs) (initState cfg strategy0) with
      | .error e => .error e
      | .ok sF =>
        match BacktestEngine.calculate_performance_metrics sF.equity_curve sF.trades
            cfg.initial_capital sF.portfolio.equity with
        | .error e => .error e
        | .ok metrics =>
          .ok { strategy_id := main_config.strategy_id,
                strategy_name := main_config.name,
                start_date := c.timestamp,
                end_date := (cs.getLastD c).timestamp,
                initial_capital := cfg.initial_capital,
                final_capital := sF.portfolio.equity,
                metrics := metrics,
                equity_curve := sF.equity_curve,
                trades := sF.trades }

/-! ### Chaos engine (`app/engines/chaos_engine.py`) -/

/-- `ChaosEngine.classify_regime` (`chaos_engine.py` lines 223-246): a step
function of the chaos index with fixed breakpoints 0.3 and 0.7; the optional
`volatility` and `noise_to_signal` arguments are accepted and ignored. -/
def ChaosEngine.classify_regime (chaos_index : ℚ)
    (volatility : Option ℚ := none) (noise_to_signal : Option ℚ := none) : RegimeState :=
  if chaos_index < 3/10 then RegimeState.TREND
  else if chaos_index > 7/10 then RegimeState.CHAOTIC
  else RegimeState.NEUTRAL

/-! ### Meta engine (`app/engines/meta_engine.py`) -/

/-- `MetaEngine.evaluate_regime` (`meta_engine.py` lines 34-105). The float
constants 0.3, 0.7, 0.2, 0.5, 0.9, 0.8 are modelled as the exact rationals
they denote. `elif behavior_metrics and ...` is a truthiness test on the
optional argument. The wall-clock `timestamp` of the returned `RegimeInfo` is
outside the embedding. -/
def MetaEngine.evaluate_regime (chaos_index whale_activity_index leverage_risk_index : ℚ)
    (behavior_metrics : Option BehaviorMetrics := none) : RegimeInfo :=
  let regime := ChaosEngine.classify_regime chaos_index
  let base_multiplier : ℚ :=
    match regime with
    | RegimeState.TREND => 1
    | RegimeState.CHAOTIC => 3/10
    | RegimeState.NEUTRAL => 7/10
  let leverage_penalty := 1 - leverage_risk_index * (3/10)
  let pm1 := base_multiplier * leverage_penalty
  let whale_penalty := 1 - whale_activity_index * (1/5)
  let pm2 := pm1 * whale_penalty
  let pm3 : ℚ :=
    match behavior_metrics with
    | some bm =>
      let impulsiveness_penalty := 1 - bm.impulsiveness_index * (1/5)
      let pm := pm2 * impulsiveness_penalty
      if bm.consecutive_losses ≥ 3 then pm * (1/2) else pm
    | none => pm2
  let position_multiplier := max 0 (min 1 pm3)
  let allow_new_trades : Bool :=
    if chaos_index > 9/10 ∧ leverage_risk_index > 4/5 then false
    else if regime = RegimeState.CHAOTIC ∧ leverage_risk_index > 7/10 then false
    else
      match behavior_metrics with
      | some bm => if bm.consecutive_losses ≥ 5 then false else true
      | none => true
  { regime := regime,
    chaos_index := chaos_index,
    whale_activity_index := whale_activity_index,
    leverage_risk_index := leverage_risk_index,
    position_multiplier := position_multiplier,
    allow_new_trades := allow_new_trades }


/-! ### Concrete scenarios -/

/-- A constant stream of trade ids (models one possible sequence of
`uuid.uuid4()` draws). -/
def constIds (s : String) : ℕ → String := fun _ => s

/-- Scenario A (spec §8, mirrored by `tests/test_backtest_engine.py`):
MA-Crossover with short_window=5, long_window=10. -/
def scenarioA_config : StrategyConfig :=
  { strategy_id := "test_strategy", strategy_type := StrategyType.ma_crossover,
    name := "Test MA Crossover",
    parameters := { short_window := some 5, long_window := some 10 } }

/-- The parameters `_create_strategy` builds for `scenarioA_config`. -/
def scenarioA_params : MACrossoverParams :=
  { short_window := 5, long_window := 10, position_size_pct := 1/10 }

/-- Scenario A bars: 100 hourly candles in a pure linear uptrend, close
price 42000 + 10·i (the price path of `test_backtest_engine.py`). -/
def scenarioA_candles : List Candle :=
  (List.range 100).map (fun i =>
    { timestamp := (i : Int), open_ := 42000 + 10 * (i : ℚ), high := 42100 + 10 * (i : ℚ),
      low := 41900 + 10 * (i : ℚ), close := 42000 + 10 * (i : ℚ), volume := 1000,
      symbol := "BTCUSDT", timeframe := "1h" })

/-- Scenario A run on a default engine (initial capital 100000). -/
def scenarioA_result : Except String StrategyResult :=
  BacktestEngine.run {} (constIds "t") [scenarioA_config] scenarioA_candles

/-- Engine with zero fee and zero slippage (legal constructor arguments) and
a small initial capital of 100, so every concrete figure stays small and
exact. -/
def frictionlessEngine : BacktestEngineConfig :=
  { initial_capital := 100, fee_rate := 0, slippage_rate := 0 }

/-- MA-Crossover with short_window=1 and long_window=2. -/
def scenarioDD_config : StrategyConfig :=
  { strategy_id := "dd", strategy_type := StrategyType.ma_crossover, name := "dd",
    parameters := { short_window := some 1, long_window := some 2 } }

/-- Price path 4, 2, 4, 8: the dip makes the 1-bar MA cross above the 2-bar
MA at the third bar (a BUY fires and is executed), and the final bar's rally
lifts equity above every previously recorded equity. All four candles carry
one and the same timestamp: with no forward time span the annualized-return
statement is skipped (`years > 0` is false) instead of raising its
`Decimal ** float` TypeError, so the run completes and returns its curve. -/
def scenarioDD_candles : List Candle :=
  (List.zip [4, 2, 4, 8] [0, 0, 0, 0]).map (fun ci =>
    { timestamp := (ci.2 : Int), open_ := ci.1, high := ci.1, low := ci.1, close := ci.1,
      volume := 1000, symbol := "BTCUSDT", timeframe := "1h" })

/-- The drawdown scenario run. -/
def scenarioDD_result : Except String StrategyResult :=
  BacktestEngine.run frictionlessEngine (constIds "t") [scenarioDD_config] scenarioDD_candles

/-- A fresh portfolio with cash = equity = 100 and no positions (the state
`run` builds before the first bar for an initial capital of 100); the small
figures keep the concrete executions below cheap to evaluate. -/
def pfTiny : Portfolio :=
  { initial_capital := 100, cash := 100, positions := [], realized_pnl := 0,
    equity := 100 }

/-- Equality of trades in every field except the `uuid.uuid4()`-generated
`trade_id`. -/
def Trade.same_except_id (t₁ t₂ : Trade) : Prop :=
  t₁.timestamp = t₂.timestamp ∧ t₁.symbol = t₂.symbol ∧ t₁.side = t₂.side ∧
  t₁.quantity = t₂.quantity ∧ t₁.price = t₂.price ∧ t₁.fee = t₂.fee ∧
  t₁.strategy_id = t₂.strategy_id

/-- `Trade.same_except_id` lifted to the optional result of an execution. -/
def tradeOptRel : Option Trade → Option Trade → Prop
  | none, none => True
  | some t₁, some t₂ => Trade.same_except_id t₁ t₂
  | _, _ => False

/-- Two engine loop states that agree everywhere except on the trade ids. -/
def RunState.same_except_ids (s₁ s₂ : RunState) : Prop :=
  s₁.strategy = s₂.strategy ∧ s₁.portfolio = s₂.portfolio ∧
  s₁.equity_curve = s₂.equity_curve ∧
  List.Forall₂ Trade.same_except_id s₁.trades s₂.trades

/-- The shape `run` gives every recorded equity point: its drawdown is
measured against the running maximum of the *previously* recorded equities
(the initial capital when there is none yet) and is not clamped. -/
def CurveSpec (init : ℚ) (curve : List EquityPoint) : Prop :=
  ∀ i (h : i < curve.length),
    (curve.get ⟨i, h⟩).drawdown =
      if 0 < curvePeak init (curve.take i) then
        (curvePeak init (curve.take i) - (curve.get ⟨i, h⟩).equity) /
          curvePeak init (curve.take i)
      else 0

/-- A sequence of signal executions against a portfolio; each item carries
the `uuid` draw, the signal and the close price of its bar. -/
def BacktestEngine.execute_all (cfg : BacktestEngineConfig)
    (steps : List (String × Signal × ℚ)) (pf : Portfolio) : Portfolio :=
  steps.foldl (fun acc step =>
    (BacktestEngine.execute_signal cfg step.1 step.2.1 step.2.2 acc).1) pf

/-- Parameter mappings on which the source strategies are well defined:
pandas `rolling` demands an integer window ≥ 1 and Python `max` demands a
nonempty period list. -/
def StrategyParameters.wellFormed (p : StrategyParameters) : Prop :=
  (match p.short_window with | some w => 1 ≤ w | none => True) ∧
  (match p.long_window with | some w => 1 ≤ w | none => True) ∧
  (match p.ma_periods with | some ps => ps ≠ [] ∧ ∀ x ∈ ps, 1 ≤ x | none => True)

/-- A BUY signal for half the equity, used by concrete executions. -/
def buySig : Signal :=
  { timestamp := 0, symbol := "B", side := Side.BUY, price := 4,
    quantity := some (1/2), reason := "r" }

/-- The trade `execute_signal` creates for `buySig` against `pfTiny` on a
frictionless engine: 100 × (1/2) / 4 = 12.5 units at fill price 4, no fee. -/
def buyTrade : Trade :=
  { trade_id := "t0", timestamp := 0, symbol := "B", side := Side.BUY,
    quantity := 25/2, price := 4, fee := 0, strategy_id := "B" }

/-- An engine with an (extreme but legal) 50% fee rate and no slippage. -/
def sellFeeEngine : BacktestEngineConfig :=
  { initial_capital := 100, fee_rate := 1/2, slippage_rate := 0 }

/-- A portfolio holding one unit of "B" at average price 4 and no cash. -/
def pfOneUnit : Portfolio :=
  { initial_capital := 100, cash := 0,
    positions := [("B", { symbol := "B", quantity := 1, avg_price := 4 })],
    realized_pnl := 0, equity := 4 }

/-- A SELL signal requesting 3 units (absolute count) of the single held
unit. -/
def overSellSignal : Signal :=
  { timestamp := 0, symbol := "B", side := Side.SELL, price := 4,
    quantity := some 3, reason := "r" }

/-- A single candle at close 4. -/
def oneCandle : List Candle :=
  [{ timestamp := 0, open_ := 4, high := 4, low := 4, close := 4, volume := 1,
     symbol := "B", timeframe := "1h" }]

/-- The result of running `scenarioA_config` over `oneCandle` on a
frictionless 100-capital engine: one equity point, no trades; the metrics
block sees the single flat point (duration counter 1) and no trade. -/
def oneCandleResult : StrategyResult :=
  { strategy_id := "test_strategy", strategy_name := "Test MA Crossover",
    start_date := 0, end_date := 0, initial_capital := 100, final_capital := 100,
    metrics := { total_return := 0, annualized_return := 0, max_drawdown := 0,
                 max_drawdown_duration := 1, total_trades := 0, winning_trades := 0,
                 losing_trades := 0 },
    equity_curve := [{ timestamp := 0, equity := 100, drawdown := 0 }], trades := [] }

/-- Decidable equality for `Except` results, used by the concrete run
evaluations. -/
instance {ε α : Type} [DecidableEq ε] [DecidableEq α] : DecidableEq (Except ε α) := fun a b =>
  match a, b with
  | Except.error e₁, Except.error e₂ =>
    if h : e₁ = e₂ then isTrue (by rw [h]) else isFalse (by simp [h])
  | Except.ok x, Except.ok y =>
    if h : x = y then isTrue (by rw [h]) else isFalse (by simp [h])
  | Except.error e₁, Except.ok y => isFalse (by simp)
  | Except.ok x, Except.error e₂ => isFalse (by simp)

/-! ### Helper lemmas -/

/-- `update_equity` fixes a portfolio that has no positions and whose cached
equity already equals its cash. -/
theorem update_equity_id (pf : Portfolio) (prices : List (String × ℚ))
    (h1 : pf.positions = []) (h2 : pf.equity = pf.cash) :
    pf.update_equity prices = pf := by
  cases pf
  simp only [Portfolio.update_equity] at *
  subst h1
  simp [h2]

/-- The signal-triggering condition of `MACrossoverStrategy.on_bar` on a full
bar history: one of the two crossover tests passes (whatever position is
held). -/
def crossfire (p : MACrossoverParams) (bars : List Bar) : Bool :=
  if bars.length < p.long_window then false
  else
    let short_ma_list := calculate_moving_average bars p.short_window
    let long_ma_list := calculate_moving_average bars p.long_window
    if short_ma_list.length < 2 ∨ long_ma_list.length < 2 then false
    else
      let short_ma_prev := short_ma_list.getD (short_ma_list.length - 2) 0
      let short_ma_curr := short_ma_list.getD (short_ma_list.length - 1) 0
      let long_ma_prev := long_ma_list.getD (long_ma_list.length - 2) 0
      let long_ma_curr := long_ma_list.getD (long_ma_list.length - 1) 0
      decide ((short_ma_prev ≤ long_ma_prev ∧ short_ma_curr > long_ma_curr) ∨
        (short_ma_prev ≥ long_ma_prev ∧ short_ma_curr < long_ma_curr))

/-- If no crossover fires on the extended history, `on_bar` only appends the
bar and returns no signal. -/
theorem on_bar_of_not_crossfire (p : MACrossoverParams) (st : MACrossoverState) (bar : Bar)
    (h : crossfire p (st.bars ++ [bar]) = false) :
    MACrossoverStrategy.on_bar p st bar = ({ st with bars := st.bars ++ [bar] }, none) := by
  simp only [crossfire] at h
  simp only [MACrossoverStrategy.on_bar]
  split_ifs at h ⊢ <;> first
    | rfl
    | (simp only [decide_eq_false_iff_not, not_or] at h; tauto)

/-- Folding `on_bar` over bars on which no prefix fires a crossover only
accumulates the bar history: no signal is recorded, no position taken. -/
theorem strategy_fold_no_crossfire (p : MACrossoverParams) :
    ∀ (todo done : List Bar),
      (∀ i, i < todo.length → crossfire p (done ++ todo.take (i+1)) = false) →
      todo.foldl (fun st bar => (MACrossoverStrategy.on_bar p st bar).1)
          { bars := done, signals := [], current_position := none } =
        { bars := done ++ todo, signals := [], current_position := none } := by
  intro todo
  induction todo with
  | nil => intro done _; simp
  | cons b rest ih =>
    intro done h
    have h0 : crossfire p (done ++ [b]) = false := by
      have := h 0 (by simp)
      simpa using this
    have hstep := on_bar_of_not_crossfire p
      { bars := done, signals := [], current_position := none } b h0
    simp only [List.foldl_cons, hstep]
    have hrest : ∀ i, i < rest.length → crossfire p ((done ++ [b]) ++ rest.take (i+1)) = false := by
      intro i hi
      have := h (i+1) (by simpa using Nat.succ_lt_succ hi)
      simpa [List.take_succ_cons, List.append_assoc] using this
    have := ih (done ++ [b]) hrest
    simpa [List.append_assoc] using this

/-- The engine-level fold: when the crossover strategy never fires, each
candle leaves the portfolio untouched (no positions ever exist, so the
equity mark is a no-op) and no trade is recorded. -/
theorem engine_fold_no_crossfire (cfg : BacktestEngineConfig) (ids : ℕ → String)
    (p : MACrossoverParams) :
    ∀ (todo : List Candle) (done : List Bar) (pf : Portfolio) (curve : List EquityPoint),
      pf.positions = [] → pf.equity = pf.cash →
      (∀ i, i < todo.length →
        crossfire p (done ++ (todo.take (i+1)).map Bar.from_candle) = false) →
      ∃ curve',
        todo.foldl (BacktestEngine.process_candle cfg ids)
            { strategy := StrategyState.ma_crossover p
                { bars := done, signals := [], current_position := none },
              portfolio := pf, equity_curve := curve, trades := [] } =
          { strategy := StrategyState.ma_crossover p
              { bars := done ++ todo.map Bar.from_candle, signals := [], current_position := none },
            portfolio := pf, equity_curve := curve', trades := [] } := by
  intro todo
  induction todo with
  | nil => intro done pf curve _ _ _; exact ⟨curve, by simp⟩
  | cons c rest ih =>
    intro done pf curve hpos heq h
    have h0 : crossfire p (done ++ [Bar.from_candle c]) = false := by
      have := h 0 (by simp)
      simpa using this
    have hstep := on_bar_of_not_crossfire p
      { bars := done, signals := [], current_position := none } (Bar.from_candle c) h0
    have hupd := update_equity_id pf [(c.symbol, c.close)] hpos heq
    have hrest : ∀ i, i < rest.length →
        crossfire p ((done ++ [Bar.from_candle c]) ++ (rest.take (i+1)).map Bar.from_candle) = false := by
      intro i hi
      have := h (i+1) (by simpa using Nat.succ_lt_succ hi)
      simpa [List.take_succ_cons, List.append_assoc] using this
    obtain ⟨curve', hcurve'⟩ := ih (done ++ [Bar.from_candle c]) pf
      (curve ++ [{ timestamp := c.timestamp
                   equity := pf.equity
                   drawdown := if 0 < curvePeak cfg.initial_capital curve then
                     (curvePeak cfg.initial_capital curve - pf.equity) /
                       curvePeak cfg.initial_capital curve
                     else 0 }]) hpos heq hrest
    refine ⟨curve', ?_⟩
    simp only [List.foldl_cons]
    have hproc : BacktestEngine.process_candle cfg ids
        { strategy := StrategyState.ma_crossover p
            { bars := done, signals := [], current_position := none },
          portfolio := pf, equity_curve := curve, trades := [] } c =
        { strategy := StrategyState.ma_crossover p
            { bars := done ++ [Bar.from_candle c], signals := [], current_position := none },
          portfolio := pf,
          equity_curve := curve ++ [{ timestamp := c.timestamp
                                      equity := pf.equity
                                      drawdown := if 0 < curvePeak cfg.initial_capital curve then
                                        (curvePeak cfg.initial_capital curve - pf.equity) /
                                          curvePeak cfg.initial_capital curve
                                        else 0 }],
          trades := [] } := by
      simp only [BacktestEngine.process_candle, StrategyState.on_bar, hstep, hupd]
    rw [hproc, hcurve']
    simp [List.append_assoc]

/-- Computed fact: no prefix of the scenario-A bar history fires a crossover
(in a pure linear uptrend the short MA is already above the long MA on the
first bar where both are defined, so no ≤-to-> or ≥-to-< transition occurs). -/
theorem scenarioA_no_crossfire :
    ((List.range 100).all (fun i =>
      !(crossfire scenarioA_params ((scenarioA_candles.take (i+1)).map Bar.from_candle)))) = true := by
  with_unfolding_all decide

/-- Scenario A has 100 bars. -/
theorem scenarioA_candles_length : scenarioA_candles.length = 100 := by
  with_unfolding_all decide

/-- The no-crossfire fact in ∀ form. -/
theorem scenarioA_no_crossfire_forall :
    ∀ i, i < scenarioA_candles.length →
      crossfire scenarioA_params ((scenarioA_candles.take (i+1)).map Bar.from_candle) = false := by
  intro i hi
  have hlen : scenarioA_candles.length = 100 := scenarioA_candles_length
  have hall := scenarioA_no_crossfire
  rw [List.all_eq_true] at hall
  have := hall i (by rw [List.mem_range]; omega)
  simpa using this

/-- Scenario A produces no signal at all. -/
theorem scenarioA_run_signals_nil :
    MACrossoverStrategy.run_signals scenarioA_params (scenarioA_candles.map Bar.from_candle) = [] := by
  have h : ∀ i, i < (scenarioA_candles.map Bar.from_candle).length →
      crossfire scenarioA_params
        (([] : List Bar) ++ (scenarioA_candles.map Bar.from_candle).take (i+1)) = false := by
    intro i hi
    have := scenarioA_no_crossfire_forall i (by simpa using hi)
    simpa [List.map_take] using this
  unfold MACrossoverStrategy.run_signals
  rw [strategy_fold_no_crossfire scenarioA_params (scenarioA_candles.map Bar.from_candle) [] h]

/-! ### Claims -/

/-- C2, counterexample. The claim asserts every recorded drawdown is ≥ 0 (in
particular on a bar where equity makes a new high). In the 4-bar scenario
(prices 4, 2, 4, 8; zero fee/slippage; MA windows 1/2; capital 100) the
strategy buys at the third bar and the fourth bar's equity (110) exceeds the
running peak of the previously recorded equities (100), so the recorded
drawdown of the fourth point is −1/10 < 0: the code divides against the peak
of the *previous* points only and never clamps. -/
theorem claim_C2_counterexample :
    scenarioDD_result.toOption.map
        (fun r => r.equity_curve.map (fun pt => pt.drawdown)) = some [0, 0, 0, -(1/10)] ∧
    scenarioDD_result.toOption.map
        (fun r => r.equity_curve.any (fun pt => decide (pt.drawdown < 0))) = some true := by
  constructor <;> with_unfolding_all decide

/-- C5, counterexample. The claim asserts a present `Signal.quantity` of
exactly 0 aborts execution with no trade and no state change. In fact
`if signal.quantity:` is a Python truthiness test, `Decimal("0")` is falsy,
and the branch falls through to the 1%-of-equity default: on a 100-equity
portfolio at price 4 a BUY signal with quantity 0 executes a trade of
100×0.01/4 = 1/4 units and debits the cash by 1. -/
theorem claim_C5_counterexample :
    ((BacktestEngine.execute_signal frictionlessEngine "t0"
        { timestamp := 0, symbol := "B", side := Side.BUY, price := 4,
          quantity := some 0, reason := "r" } 4 pfTiny).2.map (fun t => t.quantity)
      = some (1/4)) ∧
    (BacktestEngine.execute_signal frictionlessEngine "t0"
        { timestamp := 0, symbol := "B", side := Side.BUY, price := 4,
          quantity := some 0, reason := "r" } 4 pfTiny).1.cash = 99 := by
  constructor <;> with_unfolding_all decide

/-- C6, counterexample. The claim asserts `run` raises when the bar sequence
is not strictly time-ordered. It does not: two candles with the same
timestamp (not strictly increasing) run to a successful result — no ordering
check exists anywhere in `run`. -/
theorem claim_C6_counterexample :
    (BacktestEngine.run {} (constIds "t") [scenarioA_config]
      [ { timestamp := 5, open_ := 100, high := 100, low := 100, close := 100,
          volume := 1, symbol := "X", timeframe := "1h" },
        { timestamp := 5, open_ := 101, high := 101, low := 101, close := 101,
          volume := 1, symbol := "X", timeframe := "1h" } ]).toOption.isSome = true := by
  with_unfolding_all decide

/-- C9: `classify_regime` ignores its optional volatility and noise-to-signal
arguments and is the pure step function of the chaos index with the fixed
breakpoints 0.3 and 0.7: below 0.3 TREND, above 0.7 CHAOTIC, everything else
(both boundary values included) NEUTRAL. -/
theorem claim_C9 :
    (∀ (c : ℚ) (v n : Option ℚ),
      ChaosEngine.classify_regime c v n = ChaosEngine.classify_regime c ∧
      (ChaosEngine.classify_regime c v n = RegimeState.TREND ↔ c < 3/10) ∧
      (ChaosEngine.classify_regime c v n = RegimeState.CHAOTIC ↔ 7/10 < c) ∧
      (ChaosEngine.classify_regime c v n = RegimeState.NEUTRAL ↔ 3/10 ≤ c ∧ c ≤ 7/10)) ∧
    ChaosEngine.classify_regime (3/10) = RegimeState.NEUTRAL ∧
    ChaosEngine.classify_regime (7/10) = RegimeState.NEUTRAL := by
  refine ⟨?_, by with_unfolding_all decide, by with_unfolding_all decide⟩
  intro c v n
  unfold ChaosEngine.classify_regime
  split_ifs with h1 h2
  · refine ⟨rfl, by simpa using h1, ?_, ?_⟩
    · simp only [reduceCtorEq, false_iff]
      linarith
    · simp only [reduceCtorEq, false_iff, not_and]
      intro h
      linarith
  · refine ⟨rfl, ?_, by simpa using h2, ?_⟩
    · simp only [reduceCtorEq, false_iff]
      linarith
    · simp only [reduceCtorEq, false_iff, not_and]
      intro h
      linarith
  · refine ⟨rfl, ?_, ?_, ?_⟩
    · simp only [reduceCtorEq, false_iff]
      linarith
    · simp only [reduceCtorEq, false_iff]
      linarith
    · simp only [true_iff]
      constructor <;> linarith

/-- C8: `evaluate_regime` returns `allow_new_trades = false` exactly when
(chaos > 0.9 and leverage risk > 0.8), or (the regime classified from the
chaos index is CHAOTIC and leverage risk > 0.7), or (behavior metrics are
supplied with consecutive_losses ≥ 5); and in particular for chaos 0.95 and
leverage risk 0.85 it is false whatever the other inputs are. The iff is
stated under the [0,1] ranges that the pydantic `RegimeInfo` model enforces
on the source's inputs. -/
theorem claim_C8 :
    (∀ (c w l : ℚ) (b : Option BehaviorMetrics),
      0 ≤ c → c ≤ 1 → 0 ≤ w → w ≤ 1 → 0 ≤ l → l ≤ 1 →
      ((MetaEngine.evaluate_regime c w l b).allow_new_trades = false ↔
        ((9/10 < c ∧ 4/5 < l) ∨
         (ChaosEngine.classify_regime c = RegimeState.CHAOTIC ∧ 7/10 < l) ∨
         (∃ bm, b = some bm ∧ 5 ≤ bm.consecutive_losses)))) ∧
    (∀ (w : ℚ) (b : Option BehaviorMetrics),
      (MetaEngine.evaluate_regime (19/20) w (17/20) b).allow_new_trades = false) := by
  constructor
  · intro c w l b _ _ _ _ _ _
    simp only [MetaEngine.evaluate_regime]
    cases b with
    | none => split_ifs with h1 h2 <;> simp_all
    | some bm =>
      split_ifs with h1 h2 h3 <;> simp_all
      constructor
      · exact fun h => Or.inr (Or.inr h)
      · rintro (⟨ha, hb⟩ | ⟨ha, hb⟩ | h)
        · exact absurd (h1 ha) (not_le.mpr hb)
        · exact absurd (h2 ha) (not_le.mpr hb)
        · exact h
  · intro w b
    simp only [MetaEngine.evaluate_regime]
    have hcond : (9/10 : ℚ) < 19/20 ∧ (4/5 : ℚ) < 17/20 := by norm_num
    simp [hcond]

/-- C8 witness: the iff applied at chaos 0.95, whale 0.5, leverage 0.85, no
behavior metrics. -/
theorem claim_C8_witness :
    ((0:ℚ) ≤ 19/20 ∧ (19/20:ℚ) ≤ 1 ∧ (0:ℚ) ≤ 1/2 ∧ (1/2:ℚ) ≤ 1 ∧
      (0:ℚ) ≤ 17/20 ∧ (17/20:ℚ) ≤ 1) ∧
    ((MetaEngine.evaluate_regime (19/20) (1/2) (17/20) none).allow_new_trades = false ↔
      ((9/10 < (19/20:ℚ) ∧ 4/5 < (17/20:ℚ)) ∨
       (ChaosEngine.classify_regime (19/20) = RegimeState.CHAOTIC ∧ 7/10 < (17/20:ℚ)) ∨
       (∃ bm, (none : Option BehaviorMetrics) = some bm ∧ 5 ≤ bm.consecutive_losses))) :=
  ⟨by norm_num,
   claim_C8.1 (19/20) (1/2) (17/20) none (by norm_num) (by norm_num) (by norm_num)
     (by norm_num) (by norm_num) (by norm_num)⟩

/-- The empty curve vacuously satisfies the drawdown shape. -/
theorem curveSpec_nil (init : ℚ) : CurveSpec init [] := by
  intro i h
  simp at h

/-- Appending a point whose drawdown is measured against the peak of the
existing points preserves the drawdown shape. -/
theorem curveSpec_append (init : ℚ) (curve : List EquityPoint) (pt : EquityPoint)
    (hdd : pt.drawdown = if 0 < curvePeak init curve then
      (curvePeak init curve - pt.equity) / curvePeak init curve else 0)
    (h : CurveSpec init curve) :
    CurveSpec init (curve ++ [pt]) := by
  intro i hi
  by_cases hlt : i < curve.length
  · have hget : (curve ++ [pt]).get ⟨i, hi⟩ = curve.get ⟨i, hlt⟩ := by
      simp [List.getElem_append_left hlt]
    have htake : (curve ++ [pt]).take i = curve.take i :=
      List.take_append_of_le_length (le_of_lt hlt)
    rw [hget, htake]
    exact h i hlt
  · have hieq : i = curve.length := by
      have hlen := hi
      simp only [List.length_append, List.length_singleton] at hlen
      omega
    subst hieq
    have hget : (curve ++ [pt]).get ⟨curve.length, hi⟩ = pt := by simp
    have htake : (curve ++ [pt]).take curve.length = curve := List.take_left curve _
    rw [hget, htake]
    exact hdd

/-- Each loop iteration preserves the drawdown shape of the recorded curve. -/
theorem process_candle_curveSpec (cfg : BacktestEngineConfig) (ids : ℕ → String)
    (s : RunState) (c : Candle) (h : CurveSpec cfg.initial_capital s.equity_curve) :
    CurveSpec cfg.initial_capital (BacktestEngine.process_candle cfg ids s c).equity_curve := by
  simp only [BacktestEngine.process_candle]
  exact curveSpec_append cfg.initial_capital s.equity_curve _ rfl h

/-- The fold of the loop preserves the drawdown shape. -/
theorem foldl_curveSpec (cfg : BacktestEngineConfig) (ids : ℕ → String) :
    ∀ (cs : List Candle) (s : RunState), CurveSpec cfg.initial_capital s.equity_curve →
      CurveSpec cfg.initial_capital
        (cs.foldl (BacktestEngine.process_candle cfg ids) s).equity_curve := by
  intro cs
  induction cs with
  | nil => intro s h; exact h
  | cons c rest ih =>
    intro s h
    exact ih _ (process_candle_curveSpec cfg ids s c h)

/-- Each loop iteration appends exactly one equity point. -/
theorem process_candle_curve_len (cfg : BacktestEngineConfig) (ids : ℕ → String)
    (s : RunState) (c : Candle) :
    (BacktestEngine.process_candle cfg ids s c).equity_curve.length
      = s.equity_curve.length + 1 := by
  simp [BacktestEngine.process_candle]

/-- The fold appends one equity point per candle. -/
theorem foldl_curve_len (cfg : BacktestEngineConfig) (ids : ℕ → String) :
    ∀ (cs : List Candle) (s : RunState),
      (cs.foldl (BacktestEngine.process_candle cfg ids) s).equity_curve.length
        = s.equity_curve.length + cs.length := by
  intro cs
  induction cs with
  | nil => intro s; simp
  | cons c rest ih =>
    intro s
    rw [List.foldl_cons, ih, process_candle_curve_len]
    simp only [List.length_cons]
    omega

/-- The trade id enters `_execute_signal` only through the created trade's
`trade_id` field: the resulting portfolio is the same and the optional trade
agrees in every other field. -/
theorem execute_signal_ids (cfg : BacktestEngineConfig) (tid₁ tid₂ : String)
    (signal : Signal) (cp : ℚ) (pf : Portfolio) :
    (BacktestEngine.execute_signal cfg tid₁ signal cp pf).1 =
      (BacktestEngine.execute_signal cfg tid₂ signal cp pf).1 ∧
    tradeOptRel (BacktestEngine.execute_signal cfg tid₁ signal cp pf).2
      (BacktestEngine.execute_signal cfg tid₂ signal cp pf).2 := by
  simp only [BacktestEngine.execute_signal]
  cases h : signal.side <;>
    simp only [h] <;> split_ifs <;>
    simp [tradeOptRel, Trade.same_except_id]

/-- One loop iteration preserves agreement-except-trade-ids. -/
theorem process_candle_ids (cfg : BacktestEngineConfig) (ids₁ ids₂ : ℕ → String)
    (s₁ s₂ : RunState) (c : Candle) (h : s₁.same_except_ids s₂) :
    (BacktestEngine.process_candle cfg ids₁ s₁ c).same_except_ids
      (BacktestEngine.process_candle cfg ids₂ s₂ c) := by
  obtain ⟨hstrat, hpf, hcurve, htr⟩ := h
  have hlen : s₁.trades.length = s₂.trades.length := htr.length_eq
  simp only [BacktestEngine.process_candle, hstrat, hpf, hcurve, hlen]
  cases hsig : (s₂.strategy.on_bar (Bar.from_candle c)).2 with
  | none =>
    exact ⟨rfl, rfl, rfl, htr⟩
  | some sg =>
    have hx := execute_signal_ids cfg (ids₁ s₂.trades.length) (ids₂ s₂.trades.length)
      sg c.close s₂.portfolio
    rcases hE₁ : BacktestEngine.execute_signal cfg (ids₁ s₂.trades.length) sg c.close s₂.portfolio
      with ⟨pfa, ta⟩
    rcases hE₂ : BacktestEngine.execute_signal cfg (ids₂ s₂.trades.length) sg c.close s₂.portfolio
      with ⟨pfb, tb⟩
    rw [hE₁, hE₂] at hx
    obtain ⟨hpf', hrel⟩ := hx
    dsimp only at hpf' hrel
    cases ta with
    | none =>
      cases tb with
      | none =>
        simp only [hE₁, hE₂, hpf']
        exact ⟨rfl, rfl, rfl, htr⟩
      | some t => exact hrel.elim
    | some t₁ =>
      cases tb with
      | none => exact hrel.elim
      | some t₂ =>
        simp only [hE₁, hE₂, hpf']
        exact ⟨rfl, rfl, rfl,
          List.rel_append htr (List.Forall₂.cons hrel List.Forall₂.nil)⟩

/-- The engine fold preserves agreement-except-trade-ids. -/
theorem foldl_process_ids (cfg : BacktestEngineConfig) (ids₁ ids₂ : ℕ → String) :
    ∀ (cs : List Candle) (s₁ s₂ : RunState), s₁.same_except_ids s₂ →
      (cs.foldl (BacktestEngine.process_candle cfg ids₁) s₁).same_except_ids
        (cs.foldl (BacktestEngine.process_candle cfg ids₂) s₂) := by
  intro cs
  induction cs with
  | nil => intro s₁ s₂ h; exact h
  | cons c rest ih =>
    intro s₁ s₂ h
    exact ih _ _ (process_candle_ids cfg ids₁ ids₂ s₁ s₂ c h)

/-- C4, counterexample: the trade list is *not* identical across replays —
it depends on the uuid stream. Running the 4-bar drawdown scenario (which
executes one trade) with the uuid stream that always yields "a" and with the
one that always yields "b" produces different trade lists. -/
theorem claim_C4_counterexample :
    (BacktestEngine.run frictionlessEngine (constIds "a")
        [scenarioDD_config] scenarioDD_candles).toOption.map (fun r => r.trades) ≠
    (BacktestEngine.run frictionlessEngine (constIds "b")
        [scenarioDD_config] scenarioDD_candles).toOption.map (fun r => r.trades) := by
  with_unfolding_all decide

/-- A successful association-list lookup is a membership. -/
theorem lookup_mem : ∀ (ps : List (String × Position)) (k : String) (v : Position),
    ps.lookup k = some v → (k, v) ∈ ps := by
  intro ps
  induction ps with
  | nil => intro k v h; simp [List.lookup] at h
  | cons a rest ih =>
    intro k v h
    obtain ⟨s, q⟩ := a
    cases hk : (k == s) with
    | true =>
      have hks : k = s := by simpa using hk
      simp only [List.lookup, hk] at h
      obtain rfl : q = v := by injection h
      subst hks
      exact List.mem_cons_self _ _
    | false =>
      simp only [List.lookup, hk] at h
      exact List.mem_cons_of_mem _ (ih k v h)

/-- Looking up the key just written by `setPosition` yields the new value. -/
theorem lookup_setPosition_self : ∀ (ps : List (String × Position)) (sym : String) (p : Position),
    (setPosition ps sym p).lookup sym = some p := by
  intro ps
  induction ps with
  | nil => intro sym p; simp [setPosition, List.lookup]
  | cons a rest ih =>
    intro sym p
    obtain ⟨s, q⟩ := a
    by_cases hs : s = sym
    · subst hs
      simp [setPosition, List.lookup]
    · have hbeq : (sym == s) = false := by
        simp [Ne.symm hs]
      simp only [setPosition, if_neg hs, List.lookup, hbeq]
      exact ih sym p

/-- Every entry after a `setPosition` update is an old entry or carries the
written position. -/
theorem mem_setPosition : ∀ (ps : List (String × Position)) (sym : String) (p : Position)
    (x : String × Position), x ∈ setPosition ps sym p → x ∈ ps ∨ x.2 = p := by
  intro ps
  induction ps with
  | nil =>
    intro sym p x hx
    simp only [setPosition, List.mem_singleton] at hx
    right
    rw [hx]
  | cons a rest ih =>
    intro sym p x hx
    obtain ⟨s, q⟩ := a
    by_cases hs : s = sym
    · subst hs
      simp only [setPosition, if_pos rfl] at hx
      rcases List.mem_cons.mp hx with h1 | h2
      · right; rw [h1]
      · left; exact List.mem_cons_of_mem _ h2
    · simp only [setPosition, if_neg hs] at hx
      rcases List.mem_cons.mp hx with h1 | h2
      · left; rw [h1]; exact List.mem_cons_self _ _
      · rcases ih sym p x h2 with h3 | h4
        · left; exact List.mem_cons_of_mem _ h3
        · right; exact h4

/-- If every held position is nonnegative, so is the looked-up (or fresh)
position of any symbol. -/
theorem getPosition_nonneg (ps : List (String × Position)) (sym : String)
    (h : ∀ sp ∈ ps, 0 ≤ sp.2.quantity) : 0 ≤ (getPosition ps sym).quantity := by
  unfold getPosition
  cases hl : ps.lookup sym with
  | none => norm_num
  | some p => exact h (sym, p) (lookup_mem ps sym p hl)

/-- One signal execution keeps every position quantity nonnegative. -/
theorem execute_preserves_nonneg (cfg : BacktestEngineConfig) (tid : String) (s : Signal)
    (cp : ℚ) (pf : Portfolio) (h : ∀ sp ∈ pf.positions, 0 ≤ sp.2.quantity) :
    ∀ sp ∈ (BacktestEngine.execute_signal cfg tid s cp pf).1.positions, 0 ≤ sp.2.quantity := by
  intro sp hsp
  simp only [BacktestEngine.execute_signal] at hsp
  by_cases hq : BacktestEngine.determine_quantity pf.equity
      (BacktestEngine.apply_slippage cfg cp s.side) s.quantity ≤ 0
  · rw [if_pos hq] at hsp
    exact h sp hsp
  · rw [if_neg hq] at hsp
    have hq0 : 0 < BacktestEngine.determine_quantity pf.equity
        (BacktestEngine.apply_slippage cfg cp s.side) s.quantity := lt_of_not_le hq
    have hold := getPosition_nonneg pf.positions s.symbol h
    cases hside : s.side with
    | BUY =>
      rw [hside] at hq0
      simp only [hside] at hsp
      split_ifs at hsp <;>
        first
          | exact h sp hsp
          | (rcases mem_setPosition pf.positions s.symbol _ sp hsp with hin | heq
             · exact h sp hin
             · rw [heq]
               first
                 | exact le_of_lt hq0
                 | exact add_nonneg hold (le_of_lt hq0)
                 | exact sub_nonneg.mpr (by assumption)
                 | exact (sub_self _).symm.le)
    | SELL =>
      rw [hside] at hq0
      simp only [hside] at hsp
      split_ifs at hsp <;>
        first
          | exact h sp hsp
          | (rcases mem_setPosition pf.positions s.symbol _ sp hsp with hin | heq
             · exact h sp hin
             · rw [heq]
               first
                 | exact le_of_lt hq0
                 | exact add_nonneg hold (le_of_lt hq0)
                 | exact sub_nonneg.mpr (by assumption)
                 | exact (sub_self _).symm.le)

/-- C3: the ledger non-negativity contract of `_execute_signal`.
(a) after any accepted BUY the cash is ≥ 0 (the trade is only accepted when
cash covers trade value plus fee); (b) a BUY with cash < trade_value + fee is
silently rejected with no trade and no state change; (c) an executed SELL
closes exactly min(computed quantity, held quantity); (d) starting from
nonnegative positions, any sequence of executed signals keeps every position
quantity ≥ 0. -/
theorem claim_C3 :
    (∀ (cfg : BacktestEngineConfig) (tid : String) (s : Signal) (cp : ℚ) (pf : Portfolio)
        (t : Trade), s.side = Side.BUY →
      (BacktestEngine.execute_signal cfg tid s cp pf).2 = some t →
      0 ≤ (BacktestEngine.execute_signal cfg tid s cp pf).1.cash) ∧
    (∀ (cfg : BacktestEngineConfig) (tid : String) (s : Signal) (cp : ℚ) (pf : Portfolio),
      s.side = Side.BUY →
      pf.cash <
        BacktestEngine.determine_quantity pf.equity
            (BacktestEngine.apply_slippage cfg cp Side.BUY) s.quantity *
          BacktestEngine.apply_slippage cfg cp Side.BUY +
        BacktestEngine.calculate_fee cfg
          (BacktestEngine.determine_quantity pf.equity
            (BacktestEngine.apply_slippage cfg cp Side.BUY) s.quantity)
          (BacktestEngine.apply_slippage cfg cp Side.BUY) →
      BacktestEngine.execute_signal cfg tid s cp pf = (pf, none)) ∧
    (∀ (cfg : BacktestEngineConfig) (tid : String) (s : Signal) (cp : ℚ) (pf : Portfolio),
      s.side = Side.SELL →
      0 < BacktestEngine.determine_quantity pf.equity
        (BacktestEngine.apply_slippage cfg cp Side.SELL) s.quantity →
      0 < (getPosition pf.positions s.symbol).quantity →
      ((BacktestEngine.execute_signal cfg tid s cp pf).1.positions.lookup s.symbol).map
          (fun p => p.quantity) =
        some ((getPosition pf.positions s.symbol).quantity -
          min (BacktestEngine.determine_quantity pf.equity
              (BacktestEngine.apply_slippage cfg cp Side.SELL) s.quantity)
            (getPosition pf.positions s.symbol).quantity)) ∧
    (∀ (cfg : BacktestEngineConfig) (steps : List (String × Signal × ℚ)) (pf : Portfolio),
      (∀ sp ∈ pf.positions, 0 ≤ sp.2.quantity) →
      ∀ sp ∈ (BacktestEngine.execute_all cfg steps pf).positions, 0 ≤ sp.2.quantity) := by
  refine ⟨?_, ?_, ?_, ?_⟩
  · intro cfg tid s cp pf t hside hsome
    simp only [BacktestEngine.execute_signal, hside] at hsome ⊢
    split_ifs at hsome ⊢ with h1 h2 <;>
      first
        | (simp at hsome; done)
        | exact sub_nonneg.mpr (not_lt.mp h2)
  · intro cfg tid s cp pf hside hcash
    simp only [BacktestEngine.execute_signal, hside]
    split_ifs with h1 h2 <;>
      first
        | rfl
        | exact absurd hcash h2
  · intro cfg tid s cp pf hside hq hpos
    simp only [BacktestEngine.execute_signal, hside]
    rw [if_neg (not_le.mpr hq), if_neg (not_le.mpr hpos)]
    dsimp only
    rw [lookup_setPosition_self, min_def]
    split_ifs <;> rfl
  · intro cfg steps
    induction steps with
    | nil => intro pf h; exact h
    | cons step rest ih =>
      intro pf h
      exact ih _ (execute_preserves_nonneg cfg step.1 step.2.1 step.2.2 pf h)

/-- C3 witness: a concrete accepted BUY (half the equity of a fresh
portfolio) keeps the cash at 50 ≥ 0, and a one-step execution sequence keeps
all positions nonnegative. -/
theorem claim_C3_witness :
    (buySig.side = Side.BUY ∧
      (BacktestEngine.execute_signal frictionlessEngine "t0" buySig 4 pfTiny).2 = some buyTrade ∧
      0 ≤ (BacktestEngine.execute_signal frictionlessEngine "t0" buySig 4 pfTiny).1.cash) ∧
    ((∀ sp ∈ pfTiny.positions, 0 ≤ sp.2.quantity) ∧
      ∀ sp ∈ (BacktestEngine.execute_all frictionlessEngine [("t0", buySig, 4)] pfTiny).positions,
        0 ≤ sp.2.quantity) :=
  ⟨⟨rfl, by with_unfolding_all decide,
    claim_C3.1 frictionlessEngine "t0" buySig 4 pfTiny buyTrade rfl (by with_unfolding_all decide)⟩,
   ⟨by simp [pfTiny],
    claim_C3.2.2.2 frictionlessEngine [("t0", buySig, 4)] pfTiny (by simp [pfTiny])⟩⟩

/-- C5 (amended): the quantity rule of `_execute_signal`. An absent quantity
sizes the default 1% of equity; a present quantity of exactly 0 is falsy in
Python's `if signal.quantity:`, so it is treated exactly like an absent one
(1% default) rather than aborting; a present nonzero quantity ≤ 1 is an
equity fraction; a quantity > 1 is an absolute unit count; all are rounded to
8 decimals; and a computed rounded quantity ≤ 0 aborts execution with no
trade, no state change and no error. -/
theorem claim_C5_amended :
    (∀ equity price : ℚ,
      BacktestEngine.determine_quantity equity price none
        = roundTo8 (equity * (1/100) / price)) ∧
    (∀ equity price : ℚ,
      BacktestEngine.determine_quantity equity price (some 0)
        = roundTo8 (equity * (1/100) / price)) ∧
    (∀ equity price q : ℚ, q ≠ 0 → q ≤ 1 →
      BacktestEngine.determine_quantity equity price (some q)
        = roundTo8 (equity * q / price)) ∧
    (∀ equity price q : ℚ, 1 < q →
      BacktestEngine.determine_quantity equity price (some q) = roundTo8 q) ∧
    (∀ (cfg : BacktestEngineConfig) (tid : String) (s : Signal) (cp : ℚ) (pf : Portfolio),
      BacktestEngine.determine_quantity pf.equity
          (BacktestEngine.apply_slippage cfg cp s.side) s.quantity ≤ 0 →
      BacktestEngine.execute_signal cfg tid s cp pf = (pf, none)) := by
  refine ⟨fun equity price => rfl, ?_, ?_, ?_, ?_⟩
  · intro equity price
    simp [BacktestEngine.determine_quantity]
  · intro equity price q hq0 hq1
    simp [BacktestEngine.determine_quantity, hq0, hq1]
  · intro equity price q hq
    have h0 : q ≠ 0 := by
      intro h
      rw [h] at hq
      exact absurd hq (by norm_num)
    simp [BacktestEngine.determine_quantity, h0, not_le.mpr hq]
  · intro cfg tid s cp pf hq
    simp only [BacktestEngine.execute_signal]
    rw [if_pos hq]

/-- C5 witness: the fraction rule at equity 100, price 4, fraction 1/2, and
the abort rule at a present quantity of −1 (computed quantity −25 ≤ 0: no
trade, no state change). -/
theorem claim_C5_witness :
    ((1:ℚ)/2 ≠ 0 ∧ (1:ℚ)/2 ≤ 1 ∧
      BacktestEngine.determine_quantity 100 4 (some (1/2)) = roundTo8 (100 * (1/2) / 4)) ∧
    (BacktestEngine.determine_quantity pfTiny.equity
        (BacktestEngine.apply_slippage frictionlessEngine 4
          ({ timestamp := 0, symbol := "B", side := Side.BUY, price := 4,
             quantity := some (-1), reason := "r" } : Signal).side)
        ({ timestamp := 0, symbol := "B", side := Side.BUY, price := 4,
           quantity := some (-1), reason := "r" } : Signal).quantity ≤ 0 ∧
      BacktestEngine.execute_signal frictionlessEngine "t0"
        { timestamp := 0, symbol := "B", side := Side.BUY, price := 4,
          quantity := some (-1), reason := "r" } 4 pfTiny = (pfTiny, none)) :=
  ⟨⟨by norm_num, by norm_num,
    claim_C5_amended.2.2.1 100 4 (1/2) (by norm_num) (by norm_num)⟩,
   ⟨by with_unfolding_all decide,
    claim_C5_amended.2.2.2.2 frictionlessEngine "t0"
      { timestamp := 0, symbol := "B", side := Side.BUY, price := 4,
        quantity := some (-1), reason := "r" } 4 pfTiny (by with_unfolding_all decide)⟩⟩

/-- `_create_strategy` raises exactly on the unknown (`custom`) type. -/
theorem create_strategy_error_iff (c : StrategyConfig) :
    (∃ e, BacktestEngine.create_strategy c = Except.error e) ↔
      c.strategy_type = StrategyType.custom := by
  unfold BacktestEngine.create_strategy
  cases hct : c.strategy_type <;> simp

/-- C7: the weighted-average-cost update of an accepted BUY. After the buy
the position holds old_qty + q units at average price
(old_qty × old_avg + q × fill)/(old_qty + q), where q and fill are the
executed trade's quantity and fill price (the fee never enters the basis);
for a fresh position (old_qty = 0) this is exactly the fill price. -/
theorem claim_C7 (cfg : BacktestEngineConfig) (tid : String) (s : Signal) (cp : ℚ)
    (pf : Portfolio) (t : Trade) (hside : s.side = Side.BUY)
    (hsome : (BacktestEngine.execute_signal cfg tid s cp pf).2 = some t) :
    ((BacktestEngine.execute_signal cfg tid s cp pf).1.positions.lookup s.symbol).map
        (fun p => (p.quantity, p.avg_price)) =
      some ((getPosition pf.positions s.symbol).quantity + t.quantity,
        ((getPosition pf.positions s.symbol).quantity *
            (getPosition pf.positions s.symbol).avg_price + t.quantity * t.price) /
          ((getPosition pf.positions s.symbol).quantity + t.quantity)) := by
  simp only [BacktestEngine.execute_signal, hside] at hsome ⊢
  split_ifs at hsome ⊢ with h1 h2 h3
  · dsimp only at hsome ⊢
    simp only [Option.some.injEq] at hsome
    subst hsome
    rw [lookup_setPosition_self]
    dsimp only
    have hq : 0 < BacktestEngine.determine_quantity pf.equity
        (BacktestEngine.apply_slippage cfg cp Side.BUY) s.quantity := lt_of_not_le h1
    rw [h3]
    simp only [zero_mul, zero_add]
    rw [mul_div_cancel_left₀ _ (ne_of_gt hq)]
    rfl
  · dsimp only at hsome ⊢
    simp only [Option.some.injEq] at hsome
    subst hsome
    rw [lookup_setPosition_self]
    rfl

/-- C7 witness: the law applied to a concrete accepted BUY on a fresh
position (12.5 units at fill price 4). -/
theorem claim_C7_witness :
    (buySig.side = Side.BUY ∧
      (BacktestEngine.execute_signal frictionlessEngine "t0" buySig 4 pfTiny).2 = some buyTrade) ∧
    ((BacktestEngine.execute_signal frictionlessEngine "t0" buySig 4 pfTiny).1.positions.lookup
        buySig.symbol).map (fun p => (p.quantity, p.avg_price)) =
      some ((getPosition pfTiny.positions buySig.symbol).quantity + buyTrade.quantity,
        ((getPosition pfTiny.positions buySig.symbol).quantity *
            (getPosition pfTiny.positions buySig.symbol).avg_price +
          buyTrade.quantity * buyTrade.price) /
          ((getPosition pfTiny.positions buySig.symbol).quantity + buyTrade.quantity)) :=
  ⟨⟨rfl, by with_unfolding_all decide⟩,
   claim_C7 frictionlessEngine "t0" buySig 4 pfTiny buyTrade rfl (by with_unfolding_all decide)⟩

/-- C10: on an executed SELL whose computed quantity q exceeds the held
quantity h > 0, only h units are closed: the position drops to 0 (its
average price is zeroed), the cash is credited h × fill − fee and the
realized PnL books (fill − avg) × h − fee — but the fee equals
q × fill × fee_rate, computed on the full q, and the appended trade record
carries quantity q, overstating the actual fill; concretely (second
conjunct), with one unit held, a SELL for 3 units on a 50%-fee engine books
a fee of 6 against sale proceeds of 4, so the fee exceeds the proceeds of
the units actually closed. -/
theorem claim_C10 :
    (∀ (cfg : BacktestEngineConfig) (tid : String) (s : Signal) (cp : ℚ) (pf : Portfolio),
      s.side = Side.SELL →
      0 < (getPosition pf.positions s.symbol).quantity →
      (getPosition pf.positions s.symbol).quantity <
        BacktestEngine.determine_quantity pf.equity
          (BacktestEngine.apply_slippage cfg cp Side.SELL) s.quantity →
      ((BacktestEngine.execute_signal cfg tid s cp pf).1.cash =
        pf.cash + ((getPosition pf.positions s.symbol).quantity *
            BacktestEngine.apply_slippage cfg cp Side.SELL -
          BacktestEngine.calculate_fee cfg
            (BacktestEngine.determine_quantity pf.equity
              (BacktestEngine.apply_slippage cfg cp Side.SELL) s.quantity)
            (BacktestEngine.apply_slippage cfg cp Side.SELL))) ∧
      ((BacktestEngine.execute_signal cfg tid s cp pf).1.realized_pnl =
        pf.realized_pnl + ((BacktestEngine.apply_slippage cfg cp Side.SELL -
            (getPosition pf.positions s.symbol).avg_price) *
            (getPosition pf.positions s.symbol).quantity -
          BacktestEngine.calculate_fee cfg
            (BacktestEngine.determine_quantity pf.equity
              (BacktestEngine.apply_slippage cfg cp Side.SELL) s.quantity)
            (BacktestEngine.apply_slippage cfg cp Side.SELL))) ∧
      (((BacktestEngine.execute_signal cfg tid s cp pf).1.positions.lookup s.symbol).map
          (fun p => (p.quantity, p.avg_price)) = some (0, 0)) ∧
      ((BacktestEngine.execute_signal cfg tid s cp pf).2.map (fun t => (t.quantity, t.fee)) =
        some (BacktestEngine.determine_quantity pf.equity
            (BacktestEngine.apply_slippage cfg cp Side.SELL) s.quantity,
          BacktestEngine.calculate_fee cfg
            (BacktestEngine.determine_quantity pf.equity
              (BacktestEngine.apply_slippage cfg cp Side.SELL) s.quantity)
            (BacktestEngine.apply_slippage cfg cp Side.SELL)))) ∧
    ((BacktestEngine.execute_signal sellFeeEngine "t0" overSellSignal 4 pfOneUnit).2.map
        (fun t => decide ((getPosition pfOneUnit.positions "B").quantity * t.price < t.fee))
      = some true) := by
  constructor
  · intro cfg tid s cp pf hside hheld hlt
    have hq0 : ¬ BacktestEngine.determine_quantity pf.equity
        (BacktestEngine.apply_slippage cfg cp Side.SELL) s.quantity ≤ 0 :=
      not_le.mpr (lt_trans hheld hlt)
    simp only [BacktestEngine.execute_signal, hside]
    rw [if_neg hq0, if_neg (not_le.mpr hheld), if_neg (not_le.mpr hlt)]
    dsimp only
    rw [lookup_setPosition_self]
    rw [sub_self]
    refine ⟨rfl, rfl, ?_, rfl⟩
    simp
  · with_unfolding_all decide

/-- C10 witness: the over-sell law applied to the concrete one-unit
portfolio and the 3-unit SELL. -/
theorem claim_C10_witness :
    (overSellSignal.side = Side.SELL ∧
      0 < (getPosition pfOneUnit.positions overSellSignal.symbol).quantity ∧
      (getPosition pfOneUnit.positions overSellSignal.symbol).quantity <
        BacktestEngine.determine_quantity pfOneUnit.equity
          (BacktestEngine.apply_slippage sellFeeEngine 4 Side.SELL) overSellSignal.quantity) ∧
    ((BacktestEngine.execute_signal sellFeeEngine "t0" overSellSignal 4 pfOneUnit).1.cash =
      pfOneUnit.cash + ((getPosition pfOneUnit.positions overSellSignal.symbol).quantity *
          BacktestEngine.apply_slippage sellFeeEngine 4 Side.SELL -
        BacktestEngine.calculate_fee sellFeeEngine
          (BacktestEngine.determine_quantity pfOneUnit.equity
            (BacktestEngine.apply_slippage sellFeeEngine 4 Side.SELL) overSellSignal.quantity)
          (BacktestEngine.apply_slippage sellFeeEngine 4 Side.SELL))) :=
  ⟨⟨rfl, by with_unfolding_all decide, by with_unfolding_all decide⟩,
   (claim_C10.1 sellFeeEngine "t0" overSellSignal 4 pfOneUnit rfl
     (by with_unfolding_all decide) (by with_unfolding_all decide)).1⟩

/-! ### The fallible layer: agreement with the total embedding -/

/-- A successful checked quantity determination yields the total function's
value. -/
theorem determine_quantity_checked_ok (equity execution_price : ℚ) (sq : Option ℚ) (q : ℚ)
    (h : BacktestEngine.determine_quantity_checked equity execution_price sq = Except.ok q) :
    q = BacktestEngine.determine_quantity equity execution_price sq := by
  unfold BacktestEngine.determine_quantity_checked at h
  cases sq with
  | none =>
    show q = roundTo8 (equity * (1/100) / execution_price)
    split_ifs at h <;> simp_all
  | some x =>
    dsimp only at h
    show q = roundTo8 (if x ≠ 0 then
      if x ≤ 1 then equity * x / execution_price else x
      else equity * (1/100) / execution_price)
    by_cases hx : x ≠ 0
    · by_cases hx1 : x ≤ 1
      · rw [if_pos hx, if_pos hx1] at h ⊢
        by_cases hp : execution_price = 0
        · rw [if_pos hp] at h
          simp only [reduceCtorEq] at h
        · rw [if_neg hp] at h
          simp only [Except.ok.injEq] at h
          exact h.symm
      · rw [if_pos hx, if_neg hx1] at h ⊢
        simp only [Except.ok.injEq] at h
        exact h.symm
    · rw [if_neg hx] at h ⊢
      by_cases hp : execution_price = 0
      · rw [if_pos hp] at h
        simp only [reduceCtorEq] at h
      · rw [if_neg hp] at h
        simp only [Except.ok.injEq] at h
        exact h.symm

/-- On a nonzero fill price the checked quantity determination succeeds with
the total function's value. -/
theorem determine_quantity_checked_safe (equity execution_price : ℚ) (sq : Option ℚ)
    (hp : execution_price ≠ 0) :
    BacktestEngine.determine_quantity_checked equity execution_price sq =
      Except.ok (BacktestEngine.determine_quantity equity execution_price sq) := by
  unfold BacktestEngine.determine_quantity_checked BacktestEngine.determine_quantity
  cases sq with
  | none => rw [if_neg hp]
  | some x =>
    show (if x ≠ 0 then
        if x ≤ 1 then
          if execution_price = 0 then Except.error "decimal division by zero"
          else Except.ok (roundTo8 (equity * x / execution_price))
        else Except.ok (roundTo8 x)
      else
        if execution_price = 0 then Except.error "decimal division by zero"
        else Except.ok (roundTo8 (equity * (1/100) / execution_price))) =
      Except.ok (roundTo8 (if x ≠ 0 then
        if x ≤ 1 then equity * x / execution_price else x
        else equity * (1/100) / execution_price))
    by_cases hx : x ≠ 0
    · by_cases hx1 : x ≤ 1
      · rw [if_pos hx, if_pos hx1, if_neg hp, if_pos hx, if_pos hx1]
      · rw [if_pos hx, if_neg hx1, if_pos hx, if_neg hx1]
    · rw [if_neg hx, if_neg hp, if_neg hx]

/-- A successful checked execution yields the total `execute_signal`
result. -/
theorem execute_signal_checked_ok (cfg : BacktestEngineConfig) (tid : String) (s : Signal)
    (cp : ℚ) (pf : Portfolio) (v : Portfolio × Option Trade)
    (h : BacktestEngine.execute_signal_checked cfg tid s cp pf = Except.ok v) :
    v = BacktestEngine.execute_signal cfg tid s cp pf := by
  simp only [BacktestEngine.execute_signal_checked] at h
  simp only [BacktestEngine.execute_signal]
  cases hdq : BacktestEngine.determine_quantity_checked pf.equity
      (BacktestEngine.apply_slippage cfg cp s.side) s.quantity with
  | error e =>
    rw [hdq] at h
    exact absurd h (by simp)
  | ok q =>
    rw [hdq] at h
    dsimp only at h
    have hqe := determine_quantity_checked_ok _ _ _ _ hdq
    rw [← hqe]
    by_cases hq0 : q ≤ 0
    · rw [if_pos hq0] at h
      rw [if_pos hq0]
      simp only [Except.ok.injEq] at h
      exact h.symm
    · rw [if_neg hq0] at h
      rw [if_neg hq0]
      cases hside : s.side with
      | BUY =>
        simp only [hside] at h ⊢
        split_ifs at h ⊢ <;>
          first
            | simp only [reduceCtorEq] at h
            | (simp only [Except.ok.injEq] at h; exact h.symm)
      | SELL =>
        simp only [hside] at h ⊢
        split_ifs at h ⊢ <;>
          first
            | simp only [reduceCtorEq] at h
            | (simp only [Except.ok.injEq] at h; exact h.symm)

/-- On a nonzero fill price and a nonnegative held position the checked
execution succeeds with the total `execute_signal` result. -/
theorem execute_signal_checked_safe (cfg : BacktestEngineConfig) (tid : String) (s : Signal)
    (cp : ℚ) (pf : Portfolio)
    (hep : BacktestEngine.apply_slippage cfg cp s.side ≠ 0)
    (hpos : 0 ≤ (getPosition pf.positions s.symbol).quantity) :
    BacktestEngine.execute_signal_checked cfg tid s cp pf =
      Except.ok (BacktestEngine.execute_signal cfg tid s cp pf) := by
  simp only [BacktestEngine.execute_signal_checked, BacktestEngine.execute_signal]
  rw [determine_quantity_checked_safe _ _ _ hep]
  dsimp only
  by_cases hq0 : BacktestEngine.determine_quantity pf.equity
      (BacktestEngine.apply_slippage cfg cp s.side) s.quantity ≤ 0
  · rw [if_pos hq0, if_pos hq0]
  · rw [if_neg hq0, if_neg hq0]
    have hq : 0 < BacktestEngine.determine_quantity pf.equity
        (BacktestEngine.apply_slippage cfg cp s.side) s.quantity := lt_of_not_le hq0
    cases hside : s.side with
    | BUY =>
      simp only [hside] at hq ⊢
      by_cases hz : (getPosition pf.positions s.symbol).quantity = 0
      · split_ifs <;> simp_all
      · have hgt : 0 < (getPosition pf.positions s.symbol).quantity :=
          lt_of_le_of_ne hpos (Ne.symm hz)
        have hnz : (getPosition pf.positions s.symbol).quantity +
            BacktestEngine.determine_quantity pf.equity
              (BacktestEngine.apply_slippage cfg cp Side.BUY) s.quantity ≠ 0 :=
          ne_of_gt (add_pos hgt hq)
        split_ifs <;> simp_all
    | SELL =>
      simp only [hside]
      split_ifs <;> rfl

/-- A successful checked loop iteration yields the total `process_candle`
state. -/
theorem process_candle_checked_ok (cfg : BacktestEngineConfig) (ids : ℕ → String)
    (s : RunState) (c : Candle) (s' : RunState)
    (h : BacktestEngine.process_candle_checked cfg ids s c = Except.ok s') :
    s' = BacktestEngine.process_candle cfg ids s c := by
  simp only [BacktestEngine.process_candle_checked] at h
  simp only [BacktestEngine.process_candle]
  cases hsig : (s.strategy.on_bar (Bar.from_candle c)).2 with
  | none =>
    rw [hsig] at h
    dsimp only at h ⊢
    try simp only [Except.ok.injEq] at h
    exact h.symm
  | some sg =>
    rw [hsig] at h
    dsimp only at h ⊢
    cases hE : BacktestEngine.execute_signal_checked cfg (ids s.trades.length) sg
        c.close s.portfolio with
    | error e =>
      rw [hE] at h
      try dsimp only at h
      exact absurd h (by simp)
    | ok pt =>
      rw [hE] at h
      try dsimp only at h
      have hpt := execute_signal_checked_ok _ _ _ _ _ _ hE
      try simp only [Except.ok.injEq] at h
      subst h
      rw [← hpt]
      rcases pt with ⟨pfE, topt⟩
      cases topt <;> rfl

/-- On a bar with positive close, bounded slippage and nonnegative positions
the checked loop iteration succeeds with the total `process_candle` state. -/
theorem process_candle_checked_safe (cfg : BacktestEngineConfig) (ids : ℕ → String)
    (s : RunState) (c : Candle) (hclose : 0 < c.close)
    (hs0 : 0 ≤ cfg.slippage_rate) (hs1 : cfg.slippage_rate < 1)
    (hpos : ∀ sp ∈ s.portfolio.positions, 0 ≤ sp.2.quantity) :
    BacktestEngine.process_candle_checked cfg ids s c =
      Except.ok (BacktestEngine.process_candle cfg ids s c) := by
  simp only [BacktestEngine.process_candle_checked, BacktestEngine.process_candle]
  cases hsig : (s.strategy.on_bar (Bar.from_candle c)).2 with
  | none => rfl
  | some sg =>
    have hep : BacktestEngine.apply_slippage cfg c.close sg.side ≠ 0 := by
      unfold BacktestEngine.apply_slippage
      cases sg.side
      · exact mul_ne_zero (ne_of_gt hclose) (ne_of_gt (by linarith))
      · exact mul_ne_zero (ne_of_gt hclose) (ne_of_gt (by linarith))
    have hpq := getPosition_nonneg s.portfolio.positions sg.symbol hpos
    dsimp only
    rw [execute_signal_checked_safe cfg (ids s.trades.length) sg c.close s.portfolio hep hpq]
    dsimp only
    rcases hE : BacktestEngine.execute_signal cfg (ids s.trades.length) sg c.close s.portfolio
      with ⟨pfE, topt⟩
    cases topt <;> rfl

/-- One loop iteration keeps every position quantity nonnegative. -/
theorem process_candle_preserves_nonneg (cfg : BacktestEngineConfig) (ids : ℕ → String)
    (s : RunState) (c : Candle) (h : ∀ sp ∈ s.portfolio.positions, 0 ≤ sp.2.quantity) :
    ∀ sp ∈ (BacktestEngine.process_candle cfg ids s c).portfolio.positions,
      0 ≤ sp.2.quantity := by
  simp only [BacktestEngine.process_candle]
  cases hsig : (s.strategy.on_bar (Bar.from_candle c)).2 with
  | none =>
    intro sp hsp
    simp only [Portfolio.update_equity] at hsp
    exact h sp hsp
  | some sg =>
    have hx := execute_preserves_nonneg cfg (ids s.trades.length) sg c.close s.portfolio h
    rcases hE : BacktestEngine.execute_signal cfg (ids s.trades.length) sg c.close s.portfolio
      with ⟨pfE, topt⟩
    rw [hE] at hx
    dsimp only
    rw [hE]
    cases topt <;>
      (intro sp hsp
       simp only [Portfolio.update_equity] at hsp
       exact hx sp hsp)

/-- A successful checked loop run is the total fold. -/
theorem run_loop_ok_foldl (cfg : BacktestEngineConfig) (ids : ℕ → String) :
    ∀ (cs : List Candle) (s sF : RunState),
      BacktestEngine.run_loop cfg ids cs s = Except.ok sF →
      sF = cs.foldl (BacktestEngine.process_candle cfg ids) s := by
  intro cs
  induction cs with
  | nil =>
    intro s sF h
    simp only [BacktestEngine.run_loop, Except.ok.injEq] at h
    simpa using h.symm
  | cons c rest ih =>
    intro s sF h
    simp only [BacktestEngine.run_loop] at h
    cases hp : BacktestEngine.process_candle_checked cfg ids s c with
    | error e =>
      rw [hp] at h
      exact absurd h (by simp)
    | ok s' =>
      rw [hp] at h
      dsimp only at h
      have hs' := process_candle_checked_ok cfg ids s c s' hp
      rw [List.foldl_cons, ← hs']
      exact ih s' sF h

/-- On positive closes, bounded slippage and nonnegative positions the
checked loop never raises: it returns the total fold. -/
theorem run_loop_safe (cfg : BacktestEngineConfig) (ids : ℕ → String)
    (hs0 : 0 ≤ cfg.slippage_rate) (hs1 : cfg.slippage_rate < 1) :
    ∀ (cs : List Candle) (s : RunState),
      (∀ c ∈ cs, 0 < c.close) →
      (∀ sp ∈ s.portfolio.positions, 0 ≤ sp.2.quantity) →
      BacktestEngine.run_loop cfg ids cs s =
        Except.ok (cs.foldl (BacktestEngine.process_candle cfg ids) s) := by
  intro cs
  induction cs with
  | nil =>
    intro s _ _
    rfl
  | cons c rest ih =>
    intro s hcl hpos
    have hc : 0 < c.close := hcl c (List.mem_cons_self c rest)
    have hstep := process_candle_checked_safe cfg ids s c hc hs0 hs1 hpos
    simp only [BacktestEngine.run_loop, hstep, List.foldl_cons]
    exact ih (BacktestEngine.process_candle cfg ids s c)
      (fun x hx => hcl x (List.mem_cons_of_mem c hx))
      (process_candle_preserves_nonneg cfg ids s c hpos)

/-! ### Curve timestamps and the metrics gate -/

/-- One loop iteration appends the candle timestamp to the curve
timestamps. -/
theorem process_candle_curve_ts (cfg : BacktestEngineConfig) (ids : ℕ → String)
    (s : RunState) (c : Candle) :
    (BacktestEngine.process_candle cfg ids s c).equity_curve.map (fun p => p.timestamp) =
      s.equity_curve.map (fun p => p.timestamp) ++ [c.timestamp] := by
  simp [BacktestEngine.process_candle]

/-- The fold records the candle timestamps in order. -/
theorem foldl_curve_ts (cfg : BacktestEngineConfig) (ids : ℕ → String) :
    ∀ (cs : List Candle) (s : RunState),
      (cs.foldl (BacktestEngine.process_candle cfg ids) s).equity_curve.map
          (fun p => p.timestamp) =
        s.equity_curve.map (fun p => p.timestamp) ++ cs.map (fun c => c.timestamp) := by
  intro cs
  induction cs with
  | nil => intro s; simp
  | cons c rest ih =>
    intro s
    rw [List.foldl_cons, ih, process_candle_curve_ts]
    simp

/-- Lists with equal timestamp images have equal last timestamps (with
defaults of equal timestamp). -/
theorem lastD_ts_of_map_ts :
    ∀ (rest : List EquityPoint) (cs : List Candle) (p0 : EquityPoint) (c : Candle),
      rest.map (fun p => p.timestamp) = cs.map (fun x => x.timestamp) →
      p0.timestamp = c.timestamp →
      (rest.getLastD p0).timestamp = (cs.getLastD c).timestamp := by
  intro rest
  induction rest with
  | nil =>
    intro cs p0 c h h0
    cases cs with
    | nil => simpa using h0
    | cons d ds => simp at h
  | cons r rs ih =>
    intro cs p0 c h h0
    cases cs with
    | nil => simp at h
    | cons d ds =>
      simp only [List.map_cons, List.cons.injEq] at h
      obtain ⟨h1, h2⟩ := h
      rw [List.getLastD_cons, List.getLastD_cons]
      exact ih ds r d h2 h1

/-- The equity curve of a run fold from the initial state: nonempty, first
point stamped by the first candle, last point stamped by the last candle. -/
theorem fold_curve_matches (cfg : BacktestEngineConfig) (ids : ℕ → String)
    (st : StrategyState) (c : Candle) (cs : List Candle) :
    ∃ p0 rest,
      ((c :: cs).foldl (BacktestEngine.process_candle cfg ids)
          (initState cfg st)).equity_curve = p0 :: rest ∧
      p0.timestamp = c.timestamp ∧
      (rest = [] ↔ cs = []) ∧
      (rest.getLastD p0).timestamp = (cs.getLastD c).timestamp := by
  have hts := foldl_curve_ts cfg ids (c :: cs) (initState cfg st)
  have hinit : (initState cfg st).equity_curve = [] := rfl
  rw [hinit] at hts
  simp only [List.map_nil, List.nil_append, List.map_cons] at hts
  cases hcv : ((c :: cs).foldl (BacktestEngine.process_candle cfg ids)
      (initState cfg st)).equity_curve with
  | nil =>
    rw [hcv] at hts
    exact absurd hts (by simp)
  | cons p0 rest =>
    rw [hcv] at hts
    simp only [List.map_cons, List.cons.injEq] at hts
    obtain ⟨h0, hrest⟩ := hts
    have hlen : rest.length = cs.length := by
      have := congrArg List.length hrest
      simpa using this
    refine ⟨p0, rest, rfl, h0, ?_, lastD_ts_of_map_ts rest cs p0 c hrest h0⟩
    constructor
    · intro hr
      rw [hr] at hlen
      exact List.length_eq_zero.mp hlen.symm
    · intro hc
      rw [hc] at hlen
      exact List.length_eq_zero.mp hlen

/-- The max-drawdown loop never raises once the peak is positive (the peak
can only grow). -/
theorem maxDrawdownLoop_ok :
    ∀ (curve : List EquityPoint) (peak max_dd : ℚ) (max_dur cur : ℕ), 0 < peak →
      ∃ v, maxDrawdownLoop peak max_dd max_dur cur curve = Except.ok v := by
  intro curve
  induction curve with
  | nil =>
    intro peak max_dd max_dur cur _
    exact ⟨(max_dd, max_dur), rfl⟩
  | cons pt rest ih =>
    intro peak max_dd max_dur cur hpeak
    by_cases hlt : peak < pt.equity
    · simp only [maxDrawdownLoop, if_pos hlt]
      exact ih pt.equity max_dd max_dur 0 (lt_trans hpeak hlt)
    · simp only [maxDrawdownLoop, if_neg hlt, if_neg (ne_of_gt hpeak)]
      exact ih peak _ _ _ hpeak

/-- With a zero initial capital the metrics block raises at the
total-return division (nonempty curve). -/
theorem metrics_error_of_zero (p0 : EquityPoint) (rest : List EquityPoint)
    (trades : List Trade) (fin : ℚ) :
    BacktestEngine.calculate_performance_metrics (p0 :: rest) trades 0 fin =
      Except.error "decimal division by zero" := by
  simp [BacktestEngine.calculate_performance_metrics]

/-- With a nonzero initial capital and a curve of more than one point
spanning forward time, the metrics block raises the `Decimal ** float`
TypeError of the annualized-return statement. -/
theorem metrics_typeerror (p0 : EquityPoint) (rest : List EquityPoint)
    (trades : List Trade) (init fin : ℚ) (h0 : init ≠ 0)
    (h1 : rest ≠ []) (h2 : p0.timestamp < (rest.getLastD p0).timestamp) :
    BacktestEngine.calculate_performance_metrics (p0 :: rest) trades init fin =
      Except.error "TypeError: unsupported operand type(s) for pow: Decimal and float" := by
  simp only [BacktestEngine.calculate_performance_metrics]
  rw [if_neg h0, if_pos ⟨h1, h2⟩]

/-- With a positive initial capital and no forward time span the metrics
block succeeds. -/
theorem metrics_ok_exists (p0 : EquityPoint) (rest : List EquityPoint)
    (trades : List Trade) (init fin : ℚ) (h0 : 0 < init)
    (hg : ¬(rest ≠ [] ∧ p0.timestamp < (rest.getLastD p0).timestamp)) :
    ∃ m, BacktestEngine.calculate_performance_metrics (p0 :: rest) trades init fin =
      Except.ok m := by
  obtain ⟨v, hv⟩ := maxDrawdownLoop_ok (p0 :: rest) init 0 0 0 h0
  refine ⟨{ total_return := (fin - init) / init, annualized_return := 0,
            max_drawdown := v.1, max_drawdown_duration := v.2,
            total_trades := trades.length,
            winning_trades := (trades.filter (fun t => t.side == Side.BUY)).length,
            losing_trades := (trades.filter (fun t =>
              !(t.side == Side.BUY) && decide (0 < t.quantity))).length }, ?_⟩
  simp only [BacktestEngine.calculate_performance_metrics, if_neg (ne_of_gt h0),
    if_neg hg, hv]

/-! ### The run in terms of its stages -/

/-- A failing checked loop fails the run with the same error. -/
theorem run_err_of_loop_err (cfg : BacktestEngineConfig) (ids : ℕ → String)
    (c0 : StrategyConfig) (crest : List StrategyConfig) (c : Candle) (cs : List Candle)
    (st : StrategyState) (e : String)
    (hcr : BacktestEngine.create_strategy c0 = Except.ok st)
    (hl : BacktestEngine.run_loop cfg ids (c :: cs) (initState cfg st) = Except.error e) :
    BacktestEngine.run cfg ids (c0 :: crest) (c :: cs) = Except.error e := by
  simp [BacktestEngine.run, hcr, hl]

/-- A failing metrics block fails the run with the same error. -/
theorem run_err_of_metrics_err (cfg : BacktestEngineConfig) (ids : ℕ → String)
    (c0 : StrategyConfig) (crest : List StrategyConfig) (c : Candle) (cs : List Candle)
    (st : StrategyState) (sF : RunState) (e : String)
    (hcr : BacktestEngine.create_strategy c0 = Except.ok st)
    (hl : BacktestEngine.run_loop cfg ids (c :: cs) (initState cfg st) = Except.ok sF)
    (hm : BacktestEngine.calculate_performance_metrics sF.equity_curve sF.trades
      cfg.initial_capital sF.portfolio.equity = Except.error e) :
    BacktestEngine.run cfg ids (c0 :: crest) (c :: cs) = Except.error e := by
  simp [BacktestEngine.run, hcr, hl, hm]

/-- A run whose loop and metrics both succeed returns the assembled
result. -/
theorem run_ok_of_parts (cfg : BacktestEngineConfig) (ids : ℕ → String)
    (c0 : StrategyConfig) (crest : List StrategyConfig) (c : Candle) (cs : List Candle)
    (st : StrategyState) (sF : RunState) (m : PerformanceMetrics)
    (hcr : BacktestEngine.create_strategy c0 = Except.ok st)
    (hl : BacktestEngine.run_loop cfg ids (c :: cs) (initState cfg st) = Except.ok sF)
    (hm : BacktestEngine.calculate_performance_metrics sF.equity_curve sF.trades
      cfg.initial_capital sF.portfolio.equity = Except.ok m) :
    BacktestEngine.run cfg ids (c0 :: crest) (c :: cs) =
      Except.ok { strategy_id := c0.strategy_id
                  strategy_name := c0.name
                  start_date := c.timestamp
                  end_date := (cs.getLastD c).timestamp
                  initial_capital := cfg.initial_capital
                  final_capital := sF.portfolio.equity
                  metrics := m
                  equity_curve := sF.equity_curve
                  trades := sF.trades } := by
  simp [BacktestEngine.run, hcr, hl, hm]

/-- Inversion of a successful run: the inputs were nonempty, the strategy
was created, and the result's curve, final capital and trades are those of
the total engine fold. -/
theorem run_ok_inv (cfg : BacktestEngineConfig) (ids : ℕ → String)
    (cfgs : List StrategyConfig) (candles : List Candle) (r : StrategyResult)
    (h : BacktestEngine.run cfg ids cfgs candles = Except.ok r) :
    ∃ c0 crest c cs st,
      cfgs = c0 :: crest ∧ candles = c :: cs ∧
      BacktestEngine.create_strategy c0 = Except.ok st ∧
      r.equity_curve = ((c :: cs).foldl (BacktestEngine.process_candle cfg ids)
        (initState cfg st)).equity_curve ∧
      r.final_capital = ((c :: cs).foldl (BacktestEngine.process_candle cfg ids)
        (initState cfg st)).portfolio.equity ∧
      r.trades = ((c :: cs).foldl (BacktestEngine.process_candle cfg ids)
        (initState cfg st)).trades := by
  cases cfgs with
  | nil => simp [BacktestEngine.run] at h
  | cons c0 crest =>
    cases candles with
    | nil => simp [BacktestEngine.run] at h
    | cons c cs =>
      cases hcr : BacktestEngine.create_strategy c0 with
      | error e => simp [BacktestEngine.run, hcr] at h
      | ok st =>
        simp only [BacktestEngine.run, hcr] at h
        cases hl : BacktestEngine.run_loop cfg ids (c :: cs) (initState cfg st) with
        | error e => rw [hl] at h; exact absurd h (by simp)
        | ok sF =>
          rw [hl] at h
          dsimp only at h
          have hsF := run_loop_ok_foldl cfg ids (c :: cs) (initState cfg st) sF hl
          cases hm : BacktestEngine.calculate_performance_metrics sF.equity_curve sF.trades
              cfg.initial_capital sF.portfolio.equity with
          | error e => rw [hm] at h; exact absurd h (by simp)
          | ok m =>
            rw [hm] at h
            dsimp only at h
            simp only [Except.ok.injEq] at h
            subst h
            exact ⟨c0, crest, c, cs, st, rfl, rfl, hcr,
              by rw [← hsF], by rw [← hsF], by rw [← hsF]⟩

/-- The uuid draw enters the checked execution only through the created
trade's id: both draws raise the same error or succeed with the same
portfolio and trades agreeing except in their ids. -/
theorem execute_signal_checked_ids (cfg : BacktestEngineConfig) (tid₁ tid₂ : String)
    (sg : Signal) (cp : ℚ) (pf : Portfolio) :
    (∃ e, BacktestEngine.execute_signal_checked cfg tid₁ sg cp pf = Except.error e ∧
      BacktestEngine.execute_signal_checked cfg tid₂ sg cp pf = Except.error e) ∨
    (∃ v₁ v₂, BacktestEngine.execute_signal_checked cfg tid₁ sg cp pf = Except.ok v₁ ∧
      BacktestEngine.execute_signal_checked cfg tid₂ sg cp pf = Except.ok v₂ ∧
      v₁.1 = v₂.1 ∧ tradeOptRel v₁.2 v₂.2) := by
  simp only [BacktestEngine.execute_signal_checked]
  cases hdq : BacktestEngine.determine_quantity_checked pf.equity
      (BacktestEngine.apply_slippage cfg cp sg.side) sg.quantity with
  | error e => exact Or.inl ⟨e, rfl, rfl⟩
  | ok q =>
    dsimp only
    by_cases hq0 : q ≤ 0
    · simp only [if_pos hq0]
      exact Or.inr ⟨(pf, none), (pf, none), rfl, rfl, rfl, trivial⟩
    · simp only [if_neg hq0]
      cases hside : sg.side <;>
        (dsimp only
         split_ifs <;>
           first
             | exact Or.inl ⟨_, rfl, rfl⟩
             | exact Or.inr ⟨_, _, rfl, rfl, rfl, trivial⟩
             | exact Or.inr ⟨_, _, rfl, rfl, rfl, ⟨rfl, rfl, rfl, rfl, rfl, rfl, rfl⟩⟩)

/-- One checked loop iteration preserves agreement-except-trade-ids, or
raises the same error on both sides. -/
theorem process_candle_checked_ids (cfg : BacktestEngineConfig) (ids₁ ids₂ : ℕ → String)
    (s₁ s₂ : RunState) (c : Candle) (h : s₁.same_except_ids s₂) :
    (∃ e, BacktestEngine.process_candle_checked cfg ids₁ s₁ c = Except.error e ∧
      BacktestEngine.process_candle_checked cfg ids₂ s₂ c = Except.error e) ∨
    (∃ u₁ u₂, BacktestEngine.process_candle_checked cfg ids₁ s₁ c = Except.ok u₁ ∧
      BacktestEngine.process_candle_checked cfg ids₂ s₂ c = Except.ok u₂ ∧
      u₁.same_except_ids u₂) := by
  obtain ⟨hstrat, hpf, hcurve, htr⟩ := h
  have hlen : s₁.trades.length = s₂.trades.length := htr.length_eq
  simp only [BacktestEngine.process_candle_checked, hstrat, hpf, hcurve, hlen]
  cases hsig : (s₂.strategy.on_bar (Bar.from_candle c)).2 with
  | none => exact Or.inr ⟨_, _, rfl, rfl, rfl, rfl, rfl, htr⟩
  | some sg =>
    dsimp only
    rcases execute_signal_checked_ids cfg (ids₁ s₂.trades.length) (ids₂ s₂.trades.length) sg
        c.close s₂.portfolio with ⟨e, h1, h2⟩ | ⟨v₁, v₂, h1, h2, hpfv, hrel⟩
    · rw [h1, h2]
      exact Or.inl ⟨e, rfl, rfl⟩
    · rw [h1, h2]
      dsimp only
      rcases v₁ with ⟨pf₁, t₁⟩
      rcases v₂ with ⟨pf₂, t₂⟩
      dsimp only at hpfv
      subst hpfv
      cases t₁ with
      | none =>
        cases t₂ with
        | none => exact Or.inr ⟨_, _, rfl, rfl, rfl, rfl, rfl, htr⟩
        | some t => exact hrel.elim
      | some x₁ =>
        cases t₂ with
        | none => exact hrel.elim
        | some x₂ =>
          exact Or.inr ⟨_, _, rfl, rfl, rfl, rfl, rfl,
            List.rel_append htr (List.Forall₂.cons hrel List.Forall₂.nil)⟩

/-- The checked loop preserves agreement-except-trade-ids, or raises the
same error on both sides. -/
theorem run_loop_ids (cfg : BacktestEngineConfig) (ids₁ ids₂ : ℕ → String) :
    ∀ (cs : List Candle) (s₁ s₂ : RunState), s₁.same_except_ids s₂ →
      (∃ e, BacktestEngine.run_loop cfg ids₁ cs s₁ = Except.error e ∧
        BacktestEngine.run_loop cfg ids₂ cs s₂ = Except.error e) ∨
      (∃ u₁ u₂, BacktestEngine.run_loop cfg ids₁ cs s₁ = Except.ok u₁ ∧
        BacktestEngine.run_loop cfg ids₂ cs s₂ = Except.ok u₂ ∧
        u₁.same_except_ids u₂) := by
  intro cs
  induction cs with
  | nil =>
    intro s₁ s₂ h
    exact Or.inr ⟨s₁, s₂, rfl, rfl, h⟩
  | cons c rest ih =>
    intro s₁ s₂ h
    simp only [BacktestEngine.run_loop]
    rcases process_candle_checked_ids cfg ids₁ ids₂ s₁ s₂ c h
      with ⟨e, h1, h2⟩ | ⟨u₁, u₂, h1, h2, hrel⟩
    · rw [h1, h2]
      exact Or.inl ⟨e, rfl, rfl⟩
    · rw [h1, h2]
      dsimp only
      exact ih u₁ u₂ hrel

/-- A filter that cannot distinguish id-equivalent trades keeps equal
lengths on id-equivalent lists. -/
theorem forall₂_filter_length (p : Trade → Bool)
    (hp : ∀ a b, Trade.same_except_id a b → p a = p b)
    (tr₁ tr₂ : List Trade) (h : List.Forall₂ Trade.same_except_id tr₁ tr₂) :
    (tr₁.filter p).length = (tr₂.filter p).length := by
  induction h with
  | nil => rfl
  | cons hab htl ih =>
    rename_i a b l₁ l₂
    simp only [List.filter_cons, hp a b hab]
    cases hpb : p b <;> simp [hpb, ih]

/-- The embedded metrics depend on the trade list only through its length and
its per-side counts, so id-equivalent trade lists give identical metrics. -/
theorem metrics_same_trades (curve : List EquityPoint) (init fin : ℚ)
    (tr₁ tr₂ : List Trade) (h : List.Forall₂ Trade.same_except_id tr₁ tr₂) :
    BacktestEngine.calculate_performance_metrics curve tr₁ init fin =
      BacktestEngine.calculate_performance_metrics curve tr₂ init fin := by
  have hlen : tr₁.length = tr₂.length := h.length_eq
  have hw : (tr₁.filter (fun t => t.side == Side.BUY)).length =
      (tr₂.filter (fun t => t.side == Side.BUY)).length :=
    forall₂_filter_length _ (fun a b hab => by
      obtain ⟨-, -, hside, -, -, -, -⟩ := hab
      simp [hside]) tr₁ tr₂ h
  have hl : (tr₁.filter (fun t => !(t.side == Side.BUY) && decide (0 < t.quantity))).length =
      (tr₂.filter (fun t => !(t.side == Side.BUY) && decide (0 < t.quantity))).length :=
    forall₂_filter_length _ (fun a b hab => by
      obtain ⟨-, -, hside, hq, -, -, -⟩ := hab
      simp [hside, hq]) tr₁ tr₂ h
  cases curve with
  | nil => rfl
  | cons p0 rest =>
    simp only [BacktestEngine.calculate_performance_metrics]
    split_ifs
    · rfl
    · rfl
    · cases hdl : maxDrawdownLoop init 0 0 0 (p0 :: rest) with
      | error e => rfl
      | ok dd => rw [hlen, hw, hl]

/-- A run over more than one candle spanning forward time, with a nonzero
initial capital, positive closes and bounded slippage, always aborts with
the `Decimal ** float` TypeError of the annualized-return statement. -/
theorem run_typeerror (cfg : BacktestEngineConfig) (ids : ℕ → String)
    (c0 : StrategyConfig) (crest : List StrategyConfig) (c : Candle) (cs : List Candle)
    (st : StrategyState)
    (hcr : BacktestEngine.create_strategy c0 = Except.ok st)
    (hs0 : 0 ≤ cfg.slippage_rate) (hs1 : cfg.slippage_rate < 1)
    (hclose : ∀ x ∈ c :: cs, 0 < x.close)
    (hinit : cfg.initial_capital ≠ 0)
    (hne : cs ≠ []) (hts : c.timestamp < (cs.getLastD c).timestamp) :
    BacktestEngine.run cfg ids (c0 :: crest) (c :: cs) =
      Except.error "TypeError: unsupported operand type(s) for pow: Decimal and float" := by
  have hl := run_loop_safe cfg ids hs0 hs1 (c :: cs) (initState cfg st) hclose
    (by intro sp hsp; simp [initState] at hsp)
  obtain ⟨p0, rest, hcv, h0, hiff, hlast⟩ := fold_curve_matches cfg ids st c cs
  have hrne : rest ≠ [] := fun hr => hne (hiff.mp hr)
  have hm := metrics_typeerror p0 rest
    ((c :: cs).foldl (BacktestEngine.process_candle cfg ids) (initState cfg st)).trades
    cfg.initial_capital
    ((c :: cs).foldl (BacktestEngine.process_candle cfg ids) (initState cfg st)).portfolio.equity
    hinit hrne (by rw [h0, hlast]; exact hts)
  exact run_err_of_metrics_err cfg ids c0 crest c cs st _ _ hcr hl (by rw [hcv]; exact hm)

/-! ### Scenario A under the faithful run -/

/-- Computed fact: every scenario-A close is positive. -/
theorem scenarioA_closes_pos : ∀ x ∈ scenarioA_candles, 0 < x.close := by
  have hall : scenarioA_candles.all (fun x => decide (0 < x.close)) = true := by
    with_unfolding_all decide
  intro x hx
  have := List.all_eq_true.mp hall x hx
  simpa using this

/-- The scenario-A candle loop completes (all closes positive, default
slippage in [0,1)) and — since no crossover ever fires — leaves the
portfolio untouched at cash = equity = 100000 with no trades. -/
theorem scenarioA_loop_spec :
    ∃ s, BacktestEngine.run_loop {} (constIds "t") scenarioA_candles
        (initState {} (StrategyState.ma_crossover scenarioA_params {})) = Except.ok s ∧
      s.portfolio.equity = 100000 ∧ s.portfolio.cash = 100000 ∧ s.trades = [] := by
  have hsafe := run_loop_safe {} (constIds "t") (by with_unfolding_all decide)
    (by with_unfolding_all decide) scenarioA_candles
    (initState {} (StrategyState.ma_crossover scenarioA_params {}))
    scenarioA_closes_pos (by intro sp hsp; simp [initState] at hsp)
  have hinit_eq : initState ({} : BacktestEngineConfig)
      (StrategyState.ma_crossover scenarioA_params {}) =
      { strategy := StrategyState.ma_crossover scenarioA_params
          { bars := [], signals := [], current_position := none }
        portfolio := { initial_capital := 100000, cash := 100000, positions := [],
                       realized_pnl := 0, equity := 100000 }
        equity_curve := []
        trades := [] } := rfl
  obtain ⟨curve', hfold⟩ := engine_fold_no_crossfire {} (constIds "t") scenarioA_params
    scenarioA_candles []
    { initial_capital := 100000, cash := 100000, positions := [], realized_pnl := 0,
      equity := 100000 } []
    rfl rfl (by
      intro i hi
      have := scenarioA_no_crossfire_forall i hi
      simpa using this)
  rw [hinit_eq] at hsafe
  rw [hfold] at hsafe
  exact ⟨_, hsafe, rfl, rfl, rfl⟩

/-- Scenario A spans 99 forward hours, so its run reaches the
annualized-return statement with `years > 0` and aborts with the
`Decimal ** float` TypeError. -/
theorem scenarioA_run_error :
    scenarioA_result =
      Except.error "TypeError: unsupported operand type(s) for pow: Decimal and float" := by
  have hhead : scenarioA_candles.head?.map (fun x => x.timestamp) = some 0 := by
    with_unfolding_all decide
  have hlastq : scenarioA_candles.getLast?.map (fun x => x.timestamp) = some 99 := by
    with_unfolding_all decide
  have hlen := scenarioA_candles_length
  show BacktestEngine.run {} (constIds "t") [scenarioA_config] scenarioA_candles = _
  cases hsc : scenarioA_candles with
  | nil =>
    rw [hsc] at hlen
    simp at hlen
  | cons c cs =>
    rw [hsc] at hhead hlastq hlen
    simp only [List.head?_cons] at hhead
    simp at hhead
    have hne : cs ≠ [] := by
      intro hcs
      rw [hcs] at hlen
      simp at hlen
    have hlast2 : cs.getLast?.map (fun x => x.timestamp) = some 99 := by
      cases cs with
      | nil => exact absurd rfl hne
      | cons d ds =>
        rw [← List.getLast?_cons_cons]
        exact hlastq
    have hlastD : (cs.getLastD c).timestamp = 99 := by
      cases hq : cs.getLast? with
      | none =>
        rw [hq] at hlast2
        simp at hlast2
      | some lc =>
        rw [hq] at hlast2
        simp at hlast2
        rw [List.getLastD_eq_getLast?, hq]
        exact hlast2
    have hts : c.timestamp < (cs.getLastD c).timestamp := by
      rw [hlastD, hhead]
      norm_num
    have hclose : ∀ x ∈ c :: cs, 0 < x.close := by
      intro x hx
      refine scenarioA_closes_pos x ?_
      rw [hsc]
      exact hx
    exact run_typeerror {} (constIds "t") scenarioA_config [] c cs
      (StrategyState.ma_crossover scenarioA_params {}) rfl
      (by with_unfolding_all decide) (by with_unfolding_all decide)
      hclose (by with_unfolding_all decide) hne hts

/-! ### The corrected claims about `run` -/

/-- C1, counterexample. The claim asserts scenario A (100 hourly bars, close
42000+10·i, MA-Crossover short=5/long=10, initial capital 100000) emits at
least one BUY signal and the run ends with final equity above 100000. In
fact the strategy emits no BUY signal at all, and the run returns no final
equity whatsoever: it aborts in `_calculate_performance_metrics` with the
`Decimal ** float` TypeError of the annualized-return statement (line 216),
which fires on every run spanning forward time. -/
theorem claim_C1_counterexample :
    ((MACrossoverStrategy.run_signals scenarioA_params
        (scenarioA_candles.map Bar.from_candle)).any (fun s => s.side == Side.BUY) = false) ∧
    scenarioA_result =
      Except.error "TypeError: unsupported operand type(s) for pow: Decimal and float" := by
  constructor
  · rw [scenarioA_run_signals_nil]
    rfl
  · exact scenarioA_run_error

/-- C1, amended: in scenario A the MA-Crossover strategy emits no signal at
all (when the long MA first becomes defined the short MA is already above
it, and it stays above in the uptrend, so no ≤-to-> crossover transition
ever occurs); the candle loop therefore executes no trade and finishes with
cash = equity = 100000 exactly; and the run then aborts in the
performance-metrics block — `(final/initial) ** (1/years)` is a
`Decimal ** float`, a TypeError — instead of returning a result. -/
theorem claim_C1_amended :
    MACrossoverStrategy.run_signals scenarioA_params (scenarioA_candles.map Bar.from_candle)
        = [] ∧
    (∃ s, BacktestEngine.run_loop {} (constIds "t") scenarioA_candles
        (initState {} (StrategyState.ma_crossover scenarioA_params {})) = Except.ok s ∧
      s.portfolio.equity = 100000 ∧ s.portfolio.cash = 100000 ∧ s.trades = []) ∧
    scenarioA_result =
      Except.error "TypeError: unsupported operand type(s) for pow: Decimal and float" :=
  ⟨scenarioA_run_signals_nil, scenarioA_loop_spec, scenarioA_run_error⟩

/-- C2 (amended): every successful run records exactly one equity point per
processed bar, and each point's drawdown equals (peak − equity)/peak where
peak is the running maximum of the *previously* recorded equities (the
initial capital before the first point), 0 when that peak is not positive,
with no clamping; consequently, when the peak is positive, the recorded
drawdown is ≥ 0 exactly when the point's equity does not exceed that peak —
on a bar where equity makes a new high the recorded drawdown is negative. -/
theorem claim_C2_amended (cfg : BacktestEngineConfig) (ids : ℕ → String)
    (cfgs : List StrategyConfig) (candles : List Candle) (r : StrategyResult)
    (h : BacktestEngine.run cfg ids cfgs candles = Except.ok r) :
    r.equity_curve.length = candles.length ∧
    ∀ i (hi : i < r.equity_curve.length),
      ((r.equity_curve.get ⟨i, hi⟩).drawdown =
        if 0 < curvePeak cfg.initial_capital (r.equity_curve.take i) then
          (curvePeak cfg.initial_capital (r.equity_curve.take i) -
            (r.equity_curve.get ⟨i, hi⟩).equity) /
            curvePeak cfg.initial_capital (r.equity_curve.take i)
        else 0) ∧
      (0 < curvePeak cfg.initial_capital (r.equity_curve.take i) →
        (0 ≤ (r.equity_curve.get ⟨i, hi⟩).drawdown ↔
          (r.equity_curve.get ⟨i, hi⟩).equity ≤
            curvePeak cfg.initial_capital (r.equity_curve.take i))) := by
  obtain ⟨c0, crest, c, cs, st, hcf, hcd, hcr, hcurve, hfc, htrades⟩ :=
    run_ok_inv cfg ids cfgs candles r h
  constructor
  · rw [hcurve, hcd, foldl_curve_len]
    simp [initState]
  · intro i hi
    have hspec : CurveSpec cfg.initial_capital r.equity_curve := by
      rw [hcurve]
      exact foldl_curveSpec cfg ids (c :: cs) _ (curveSpec_nil cfg.initial_capital)
    have hdd := hspec i hi
    refine ⟨hdd, ?_⟩
    intro hpeak
    rw [hdd, if_pos hpeak]
    rw [le_div_iff hpeak, zero_mul, sub_nonneg]

/-- C2 witness: the amended drawdown law applied to a concrete one-candle
run at its only equity point. -/
theorem claim_C2_witness :
    (BacktestEngine.run frictionlessEngine (constIds "t") [scenarioA_config] oneCandle
        = Except.ok oneCandleResult) ∧
    oneCandleResult.equity_curve.length = oneCandle.length ∧
    (((oneCandleResult.equity_curve.get ⟨0, by decide⟩).drawdown =
        if 0 < curvePeak frictionlessEngine.initial_capital (oneCandleResult.equity_curve.take 0) then
          (curvePeak frictionlessEngine.initial_capital (oneCandleResult.equity_curve.take 0) -
            (oneCandleResult.equity_curve.get ⟨0, by decide⟩).equity) /
            curvePeak frictionlessEngine.initial_capital (oneCandleResult.equity_curve.take 0)
        else 0) ∧
      (0 < curvePeak frictionlessEngine.initial_capital (oneCandleResult.equity_curve.take 0) →
        (0 ≤ (oneCandleResult.equity_curve.get ⟨0, by decide⟩).drawdown ↔
          (oneCandleResult.equity_curve.get ⟨0, by decide⟩).equity ≤
            curvePeak frictionlessEngine.initial_capital (oneCandleResult.equity_curve.take 0)))) :=
  have hrun : BacktestEngine.run frictionlessEngine (constIds "t") [scenarioA_config] oneCandle
      = Except.ok oneCandleResult := by with_unfolding_all decide
  ⟨hrun,
   (claim_C2_amended frictionlessEngine (constIds "t") [scenarioA_config] oneCandle
     oneCandleResult hrun).1,
   (claim_C2_amended frictionlessEngine (constIds "t") [scenarioA_config] oneCandle
     oneCandleResult hrun).2 0 (by decide)⟩

/-- C4 (amended): a run is a pure function of the engine parameters, the
strategy configs, the candles and the stream of `uuid.uuid4()` draws.
Replaying the same configs and candles — with a possibly different uuid
stream — produces the same error, or results that agree in every field
(dates, capitals, the entire equity curve, the embedded performance
metrics) with trade lists equal except possibly in the randomly generated
`trade_id` field. -/
theorem claim_C4_amended (cfg : BacktestEngineConfig) (ids₁ ids₂ : ℕ → String)
    (cfgs : List StrategyConfig) (candles : List Candle) :
    (∃ e, BacktestEngine.run cfg ids₁ cfgs candles = Except.error e ∧
      BacktestEngine.run cfg ids₂ cfgs candles = Except.error e) ∨
    (∃ r₁ r₂, BacktestEngine.run cfg ids₁ cfgs candles = Except.ok r₁ ∧
      BacktestEngine.run cfg ids₂ cfgs candles = Except.ok r₂ ∧
      r₁.strategy_id = r₂.strategy_id ∧ r₁.strategy_name = r₂.strategy_name ∧
      r₁.start_date = r₂.start_date ∧ r₁.end_date = r₂.end_date ∧
      r₁.initial_capital = r₂.initial_capital ∧ r₁.final_capital = r₂.final_capital ∧
      r₁.metrics = r₂.metrics ∧ r₁.equity_curve = r₂.equity_curve ∧
      List.Forall₂ Trade.same_except_id r₁.trades r₂.trades) := by
  cases cfgs with
  | nil => exact Or.inl ⟨_, rfl, rfl⟩
  | cons c0 crest =>
    cases candles with
    | nil => exact Or.inl ⟨_, rfl, rfl⟩
    | cons c cs =>
      cases hcr : BacktestEngine.create_strategy c0 with
      | error e =>
        refine Or.inl ⟨e, ?_, ?_⟩ <;> simp [BacktestEngine.run, hcr]
      | ok st =>
        have hinit : (initState cfg st).same_except_ids (initState cfg st) := by
          refine ⟨rfl, rfl, rfl, ?_⟩
          show List.Forall₂ Trade.same_except_id [] []
          exact List.Forall₂.nil
        rcases run_loop_ids cfg ids₁ ids₂ (c :: cs) (initState cfg st) (initState cfg st) hinit
          with ⟨e, h1, h2⟩ | ⟨u₁, u₂, h1, h2, hstrat, hpf, hcurve, htr⟩
        · exact Or.inl ⟨e, run_err_of_loop_err cfg ids₁ c0 crest c cs st e hcr h1,
            run_err_of_loop_err cfg ids₂ c0 crest c cs st e hcr h2⟩
        · have hmeq : BacktestEngine.calculate_performance_metrics u₁.equity_curve u₁.trades
              cfg.initial_capital u₁.portfolio.equity =
              BacktestEngine.calculate_performance_metrics u₂.equity_curve u₂.trades
                cfg.initial_capital u₂.portfolio.equity := by
            rw [hcurve, hpf]
            exact metrics_same_trades u₂.equity_curve cfg.initial_capital
              u₂.portfolio.equity u₁.trades u₂.trades htr
          cases hm : BacktestEngine.calculate_performance_metrics u₂.equity_curve u₂.trades
              cfg.initial_capital u₂.portfolio.equity with
          | error e =>
            refine Or.inl ⟨e, ?_, ?_⟩
            · exact run_err_of_metrics_err cfg ids₁ c0 crest c cs st u₁ e hcr h1
                (by rw [hmeq]; exact hm)
            · exact run_err_of_metrics_err cfg ids₂ c0 crest c cs st u₂ e hcr h2 hm
          | ok m =>
            exact Or.inr ⟨_, _,
              run_ok_of_parts cfg ids₁ c0 crest c cs st u₁ m hcr h1 (by rw [hmeq]; exact hm),
              run_ok_of_parts cfg ids₂ c0 crest c cs st u₂ m hcr h2 hm,
              rfl, rfl, rfl, rfl, rfl, congrArg (fun p => p.equity) hpf, rfl, hcurve, htr⟩

/-- C6 (amended): under well-formed parameters, positive closes, a
nonnegative initial capital and a slippage rate in [0,1), `run` raises
exactly when the config list is empty, the candle list is empty, the first
config's strategy type is unknown (`custom`), the initial capital is 0 (the
total-return division by `initial_capital` raises), or there is more than
one candle and the last candle's timestamp is strictly after the first's
(the annualized-return statement computes `Decimal ** float`, an
unconditional TypeError). No strict-time-ordering check exists: ordering
enters only through that first-to-last time span, and a backtest over
unordered or equal timestamps with positive capital completes normally. The
well-formedness side conditions (windows ≥ 1, nonempty period lists,
positive closes, bounded slippage) delimit the domain on which the Python
source raises no further incidental exceptions from pandas, `max` or the
quantity division. -/
theorem claim_C6_amended (cfg : BacktestEngineConfig) (ids : ℕ → String)
    (cfgs : List StrategyConfig) (candles : List Candle)
    (hwf : ∀ cf ∈ cfgs, cf.parameters.wellFormed)
    (hclose : ∀ c ∈ candles, 0 < c.close)
    (hinit : 0 ≤ cfg.initial_capital)
    (hs0 : 0 ≤ cfg.slippage_rate) (hs1 : cfg.slippage_rate < 1) :
    (∃ e, BacktestEngine.run cfg ids cfgs candles = Except.error e) ↔
      (cfgs = [] ∨ candles = [] ∨
        (∃ c0 rest, cfgs = c0 :: rest ∧ c0.strategy_type = StrategyType.custom) ∨
        cfg.initial_capital = 0 ∨
        (∃ c cs, candles = c :: cs ∧ cs ≠ [] ∧
          c.timestamp < (cs.getLastD c).timestamp)) := by
  cases cfgs with
  | nil =>
    constructor
    · intro _
      exact Or.inl rfl
    · intro _
      exact ⟨_, rfl⟩
  | cons c0 crest =>
    cases candles with
    | nil =>
      constructor
      · intro _
        exact Or.inr (Or.inl rfl)
      · intro _
        exact ⟨_, rfl⟩
    | cons c cs =>
      cases hcr : BacktestEngine.create_strategy c0 with
      | error e =>
        have hcust : c0.strategy_type = StrategyType.custom :=
          (create_strategy_error_iff c0).mp ⟨e, hcr⟩
        constructor
        · intro _
          exact Or.inr (Or.inr (Or.inl ⟨c0, crest, rfl, hcust⟩))
        · intro _
          exact ⟨e, by simp [BacktestEngine.run, hcr]⟩
      | ok st =>
        have hncust : c0.strategy_type ≠ StrategyType.custom := by
          intro hc
          obtain ⟨e, he⟩ := (create_strategy_error_iff c0).mpr hc
          rw [hcr] at he
          exact Except.noConfusion he
        have hl := run_loop_safe cfg ids hs0 hs1 (c :: cs) (initState cfg st) hclose
          (by intro sp hsp; simp [initState] at hsp)
        obtain ⟨p0, rest, hcv, h0, hiff, hlast⟩ := fold_curve_matches cfg ids st c cs
        by_cases hz : cfg.initial_capital = 0
        · have herr := run_err_of_metrics_err cfg ids c0 crest c cs st _ _ hcr hl
            (by rw [hcv, hz]; exact metrics_error_of_zero p0 rest _ _)
          constructor
          · intro _
            exact Or.inr (Or.inr (Or.inr (Or.inl hz)))
          · intro _
            exact ⟨_, herr⟩
        · have hzpos : 0 < cfg.initial_capital := lt_of_le_of_ne hinit (Ne.symm hz)
          by_cases hg : cs ≠ [] ∧ c.timestamp < (cs.getLastD c).timestamp
          · have hrne : rest ≠ [] := fun hr => hg.1 (hiff.mp hr)
            have herr := run_err_of_metrics_err cfg ids c0 crest c cs st _ _ hcr hl
              (by rw [hcv]
                  exact metrics_typeerror p0 rest _ cfg.initial_capital _ hz hrne
                    (by rw [h0, hlast]; exact hg.2))
            constructor
            · intro _
              exact Or.inr (Or.inr (Or.inr (Or.inr ⟨c, cs, rfl, hg⟩)))
            · intro _
              exact ⟨_, herr⟩
          · have hgc : ¬(rest ≠ [] ∧ p0.timestamp < (rest.getLastD p0).timestamp) := by
              intro hx
              exact hg ⟨fun hcs => hx.1 (hiff.mpr hcs), by rw [← h0, ← hlast]; exact hx.2⟩
            obtain ⟨m, hm⟩ := metrics_ok_exists p0 rest
              ((c :: cs).foldl (BacktestEngine.process_candle cfg ids)
                (initState cfg st)).trades
              cfg.initial_capital
              ((c :: cs).foldl (BacktestEngine.process_candle cfg ids)
                (initState cfg st)).portfolio.equity
              hzpos hgc
            have hok := run_ok_of_parts cfg ids c0 crest c cs st _ m hcr hl
              (by rw [hcv]; exact hm)
            constructor
            · rintro ⟨e, he⟩
              rw [hok] at he
              exact Except.noConfusion he
            · rintro (h | h | ⟨c0x, restx, heq, hcust⟩ | h | ⟨cx, csx, heq, hnex, htsx⟩)
              · exact List.noConfusion h
              · exact List.noConfusion h
              · obtain ⟨h1, -⟩ := List.cons.inj heq
                subst h1
                exact absurd hcust hncust
              · exact absurd h hz
              · obtain ⟨h1, h2⟩ := List.cons.inj heq
                subst h1
                subst h2
                exact absurd ⟨hnex, htsx⟩ hg

/-- C6 witness: the amended law applied to a well-formed config, the default
engine and an empty candle list (the run raises; the empty-candles disjunct
holds). -/
theorem claim_C6_witness :
    ((∀ cf ∈ [scenarioA_config], cf.parameters.wellFormed) ∧
      (∀ c ∈ ([] : List Candle), 0 < c.close) ∧
      (0:ℚ) ≤ ({} : BacktestEngineConfig).initial_capital ∧
      (0:ℚ) ≤ ({} : BacktestEngineConfig).slippage_rate ∧
      ({} : BacktestEngineConfig).slippage_rate < 1) ∧
    ((∃ e, BacktestEngine.run {} (constIds "t") [scenarioA_config] [] = Except.error e) ↔
      ([scenarioA_config] = [] ∨ ([] : List Candle) = [] ∨
        (∃ c0 rest, [scenarioA_config] = c0 :: rest ∧
          c0.strategy_type = StrategyType.custom) ∨
        ({} : BacktestEngineConfig).initial_capital = 0 ∨
        (∃ c cs, ([] : List Candle) = c :: cs ∧ cs ≠ [] ∧
          c.timestamp < (cs.getLastD c).timestamp))) :=
  have h1 : ∀ cf ∈ [scenarioA_config], cf.parameters.wellFormed := by
    intro cf hcf
    simp only [List.mem_singleton] at hcf
    subst hcf
    refine ⟨?_, ?_, ?_⟩ <;> simp [scenarioA_config, StrategyParameters.wellFormed]
  have h2 : ∀ c ∈ ([] : List Candle), 0 < c.close := by simp
  have h3 : (0:ℚ) ≤ ({} : BacktestEngineConfig).initial_capital := by
    with_unfolding_all decide
  have h4 : (0:ℚ) ≤ ({} : BacktestEngineConfig).slippage_rate := by
    with_unfolding_all decide
  have h5 : ({} : BacktestEngineConfig).slippage_rate < 1 := by
    with_unfolding_all decide
  ⟨⟨h1, h2, h3, h4, h5⟩,
   claim_C6_amended {} (constIds "t") [scenarioA_config] [] h1 h2 h3 h4 h5⟩

end SuperQuantLab
